import Mathlib

/-!
Shallow embedding of the StoreTrack checkout / sale-recording engine
(`src/routes/sales.js`) together with its data model (`src/models/Product.js`,
the Sale schema, the auth middleware principals), and proofs of the
specification claims about it.

Conventions of the embedding:
* JavaScript numbers that the code passes through `Number(...)` /
  `Number.isFinite(...)` are modelled by `JsNum`: a finite rational or a
  non-finite value (`NaN`, `±Infinity`, cast of `undefined`).
* MongoDB ObjectIds are strings; `isValidObjectId` models the 24-hex-char
  check shared by `express-validator`'s `isMongoId` and
  `mongoose.isValidObjectId`.
* Collections are lists; `findOneAndUpdate` acts on the first matching
  element; `session.withTransaction` is modelled by running the line loop on
  a draft product list and discarding it (returning the original state) when
  any line throws — which is exactly the all-or-nothing commit the MongoDB
  session provides to this code.
* Timestamps (`createdAt`, date query params, cursors) are integers.
-/

namespace StoreTrack

/-- Image of a JavaScript value under `Number(...)`: either a finite rational
or a non-finite result (`NaN`, `±Infinity`, the cast of `undefined` or of a
non-numeric string). -/
inductive JsNum where
  | fin (q : ℚ)
  | nonFinite
deriving DecidableEq

/-- `Number.isFinite(Number(x))`. -/
def JsNum.isFinite : JsNum → Bool
  | .fin _ => true
  | .nonFinite => false

/-- Hex digit, as accepted for ObjectId strings. -/
def isHexDigit (c : Char) : Bool :=
  c.isDigit || ("abcdefABCDEF".toList.contains c)

/-- `mongoose.isValidObjectId` / `express-validator` `isMongoId` on a string:
24 hex characters. -/
def isValidObjectId (s : String) : Bool :=
  (s.length == 24) && s.toList.all isHexDigit

/-- JavaScript truthiness of an optional string (`undefined` and `""` are
falsy). -/
def strTruthy : Option String → Bool
  | some s => s != ""
  | none => false

/-- `x || null` for an optional string, as JavaScript evaluates it. -/
def jsOrNull : Option String → Option String
  | some s => if s == "" then none else some s
  | none => none

/-- `x || null` for a string (`req.user?._id || null` with `req.user` set). -/
def idOrNull (s : String) : Option String :=
  if s == "" then none else some s

/-- `String(x).trim()`: strip leading and trailing whitespace (executable
model of JavaScript's `trim`). -/
def jsTrim (s : String) : String :=
  ⟨((s.toList.dropWhile Char.isWhitespace).reverse.dropWhile
    Char.isWhitespace).reverse⟩

/-- A Product document (`src/models/Product.js`), scoped to a tenant via
`store`. -/
structure Product where
  id : String
  store : String
  name : String
  sku : Option String
  barcode : Option String
  price : JsNum
  costPrice : JsNum
  quantity : Int
deriving DecidableEq

/-- A Staff document, as far as the sales routes read it (`_id`, `name`,
`store`). -/
structure StaffDoc where
  id : String
  name : String
  store : String
deriving DecidableEq

/-- `cashierType` enum of the Sale schema. -/
inductive CashierType where
  | staff
  | user
deriving DecidableEq

/-- A Sale document (Sale schema with `timestamps: true`). -/
structure Sale where
  id : String
  transactionId : Option String
  product : String
  productNameSnapshot : Option String
  unitPrice : Option ℚ
  unitCostPrice : Option ℚ
  staff : Option String
  cashierType : CashierType
  cashierUser : Option String
  cashierNameSnapshot : Option String
  quantity : Int
  totalPrice : ℚ
  store : String
  createdAt : Int
deriving DecidableEq

/-- The shared mutable stores: the product catalog, the staff collection and
the sale ledger. -/
structure DB where
  products : List Product
  staffs : List StaffDoc
  sales : List Sale
deriving DecidableEq

/-- `req.userType` attached by the auth middleware. -/
inductive UserType where
  | user
  | staff
deriving DecidableEq

/-- The authenticated principal: `req.user` (id, name, role) together with
`req.userType` and `req.storeId` as attached by `authMiddleware`. -/
structure Principal where
  id : String
  name : Option String
  role : String
  userType : UserType
  storeId : String
deriving DecidableEq

/-- One line of a checkout request body. -/
structure CheckoutItem where
  product : String
  quantity : Int
deriving DecidableEq

/-- Body of `POST /api/sales/checkout`. -/
structure CheckoutBody where
  items : List CheckoutItem
  staff : Option String
  expectedTotal : Option ℚ
deriving DecidableEq

/-- Body of `POST /api/sales`. -/
structure SingleSaleBody where
  product : String
  quantity : Int
  staff : Option String
deriving DecidableEq

/-- Business-rule failures of a sale / checkout line, with the structured
details the handlers attach (`err.details`). -/
inductive LineErr where
  | notFound (productId : String)
  | insufficientStock (productId : String) (productName : String)
      (available : Int) (requested : Int)
  | invalidPricing (productId : String)
deriving DecidableEq

/-- HTTP status the handlers map each line error to. -/
def LineErr.status : LineErr → Nat
  | .notFound _ => 404
  | .insufficientStock _ _ _ _ => 400
  | .invalidPricing _ => 400

/-- `details.productId` of a line error. -/
def LineErr.productId : LineErr → String
  | .notFound pid => pid
  | .insufficientStock pid _ _ _ => pid
  | .invalidPricing pid => pid

/-- Resolved cashier attribution of a sale / checkout call. -/
structure Attribution where
  staff : Option String
  cashierType : CashierType
  cashierUser : Option String
  cashierNameSnapshot : Option String
deriving DecidableEq

/-- Cashier attribution resolution, shared verbatim by both POST handlers:
staff principals are always self-attributed (body `staff` ignored);
admin/manager principals must not send a truthy body `staff` (else a
validation error on path `"staff"`), and are recorded as the logged-in
user. -/
def resolveAttribution (pr : Principal) (bodyStaff : Option String) :
    Except String Attribution :=
  if pr.userType == .staff then
    .ok ⟨some pr.id, .staff, none, jsOrNull pr.name⟩
  else if strTruthy bodyStaff then
    .error "staff"
  else
    .ok ⟨none, .user, idOrNull pr.id, jsOrNull pr.name⟩

/-- `merged.set(productId, (merged.get(productId) || 0) + qty)`: add a
quantity to the entry of `pid`, keeping the position of its first insertion
(JavaScript `Map` iteration order), or append a fresh entry. -/
def addMerged (acc : List (String × Int)) (pid : String) (qty : Int) :
    List (String × Int) :=
  match acc with
  | [] => [(pid, qty)]
  | (p, q) :: rest =>
    if p = pid then (p, q + qty) :: rest
    else (p, q) :: addMerged rest pid qty

/-- The duplicate-line merge loop of the checkout handler: entries with an
empty product id or quantity below 1 are skipped, the rest are summed per
product id. -/
def mergeItems (items : List CheckoutItem) : List (String × Int) :=
  items.foldl
    (fun acc it =>
      if it.product = "" ∨ it.quantity < 1 then acc
      else addMerged acc it.product it.quantity)
    []

/-- Specification helper: the quantity recorded for `pid` in a merged line
list (the value of its first entry, 0 when absent). -/
def mergedQty : List (String × Int) → String → Int
  | [], _ => 0
  | e :: rest, pid => if e.1 = pid then e.2 else mergedQty rest pid

/-- Specification helper: the total quantity requested for `pid` across the
raw (pre-merge) items of a checkout body. -/
def itemsQtySum (items : List CheckoutItem) (pid : String) : Int :=
  ((items.filter (fun it => it.product == pid)).map
    (fun it => it.quantity)).sum

/-- `Product.findOneAndUpdate({_id, store, quantity: {$gte: qty}},
{$inc: {quantity: -qty}}, {new: true})`: conditionally decrement the stock of
the first matching product, returning the updated document and catalog. -/
def decrementStock (products : List Product) (pid storeId : String)
    (qty : Int) : Option (Product × List Product) :=
  match products with
  | [] => none
  | p :: rest =>
    if p.id = pid ∧ p.store = storeId ∧ qty ≤ p.quantity then
      some ({ p with quantity := p.quantity - qty },
        { p with quantity := p.quantity - qty } :: rest)
    else
      match decrementStock rest pid storeId qty with
      | none => none
      | some (d, rest') => some (d, p :: rest')

/-- `Product.findOne({_id, store})`: tenant-scoped point lookup. -/
def findProduct (products : List Product) (pid storeId : String) :
    Option Product :=
  products.find? (fun p => p.id == pid && p.store == storeId)

/-- A Sale document as staged for `insertMany` (before `_id` and timestamps
are assigned). -/
structure SaleInput where
  transactionId : String
  product : String
  productNameSnapshot : String
  unitPrice : ℚ
  unitCostPrice : Option ℚ
  staff : Option String
  cashierType : CashierType
  cashierUser : Option String
  cashierNameSnapshot : Option String
  quantity : Int
  totalPrice : ℚ
  store : String
deriving DecidableEq

/-- Per-line reservation + pricing + staging loop of the checkout handler,
run against a draft catalog inside the session transaction. Returns the
final draft catalog, the staged sale rows in line order, and the running
server-computed total; or the first line's error. -/
def processLines (storeId txId : String) (attr : Attribution)
    (products : List Product) :
    List (String × Int) → Except LineErr (List Product × List SaleInput × ℚ)
  | [] => .ok (products, [], 0)
  | (pid, qty) :: rest =>
    match decrementStock products pid storeId qty with
    | none =>
      match findProduct products pid storeId with
      | none => .error (.notFound pid)
      | some existing =>
        .error (.insufficientStock pid existing.name existing.quantity qty)
    | some (productDoc, products') =>
      match productDoc.price with
      | .nonFinite => .error (.invalidPricing pid)
      | .fin unitPrice =>
        let unitCostPrice : Option ℚ :=
          match productDoc.costPrice with
          | .fin c => some c
          | .nonFinite => none
        let totalPrice := unitPrice * (qty : ℚ)
        match processLines storeId txId attr products' rest with
        | .error e => .error e
        | .ok (finalProducts, inputs, restTotal) =>
          .ok (finalProducts,
            ⟨txId, productDoc.id, productDoc.name, unitPrice, unitCostPrice,
              attr.staff, attr.cashierType, attr.cashierUser,
              attr.cashierNameSnapshot, qty, totalPrice, storeId⟩ :: inputs,
            totalPrice + restTotal)

/-- Deterministic stand-in for `new mongoose.Types.ObjectId()`: the `i`-th
fresh id minted while handling a request with seed `seed`. -/
def mintOid (seed i : Nat) : String :=
  "oid_" ++ toString seed ++ "_" ++ toString i

/-- Materialize a staged row as the stored Sale document. -/
def SaleInput.toSale (inp : SaleInput) (saleId : String) (now : Int) : Sale :=
  ⟨saleId, some inp.transactionId, inp.product, some inp.productNameSnapshot,
    some inp.unitPrice, inp.unitCostPrice, inp.staff, inp.cashierType,
    inp.cashierUser, inp.cashierNameSnapshot, inp.quantity, inp.totalPrice,
    inp.store, now⟩

/-- `Sale.insertMany(saleInputs, { session })`: assign ids and timestamps. -/
def insertSales (seed : Nat) (now : Int) (inputs : List SaleInput) :
    List Sale :=
  inputs.enum.map (fun pair => pair.2.toSale (mintOid seed (pair.1 + 1)) now)

/-- `express-validator` chain of `POST /api/sales/checkout`: returns the
`path` of the first failing check, if any. (Checks on `staff` being a string
and `client.expectedTotal` being numeric hold by typing here.) -/
def validateCheckout (body : CheckoutBody) : Option String :=
  if body.items.isEmpty then some "items"
  else if body.items.any (fun it => !isValidObjectId it.product) then
    some "items.*.product"
  else if body.items.any (fun it => it.quantity < 1) then
    some "items.*.quantity"
  else none

/-- `validation` object of the checkout response. -/
structure ValidationInfo where
  clientExpectedTotal : Option ℚ
  serverTotal : ℚ
  /-- The response field is called `matches` in the source; that word is
  reserved syntax in Lean, hence the name. -/
  matchesFlag : Option Bool
deriving DecidableEq

/-- Response of `POST /api/sales/checkout`. -/
inductive CheckoutResp where
  | validationError (path : String)
  | lineError (e : LineErr)
  | created (transactionId : String) (staff : Option String)
      (cashierType : CashierType) (cashierUser : Option String)
      (cashierName : Option String) (itemsCount : Nat) (total : ℚ)
      (createdAt : Int) (sales : List Sale) (validation : ValidationInfo)
deriving DecidableEq

/-- HTTP status of a checkout response. -/
def CheckoutResp.status : CheckoutResp → Nat
  | .validationError _ => 400
  | .lineError e => e.status
  | .created _ _ _ _ _ _ _ _ _ _ => 201

/-- Handler of `POST /api/sales/checkout` (after auth and role middleware):
validate, merge duplicate lines, resolve attribution, then — inside
`session.withTransaction`, whose all-or-nothing commit is modelled by
returning the original state whenever the line loop throws — reserve stock
and stage one Sale row per merged line, insert them, and report the
server-computed total against the advisory `client.expectedTotal`. -/
def checkoutHandler (st : DB) (pr : Principal) (body : CheckoutBody)
    (now : Int) (seed : Nat) : CheckoutResp × DB :=
  match validateCheckout body with
  | some path => (.validationError path, st)
  | none =>
    let merged := mergeItems body.items
    if merged.isEmpty then (.validationError "items", st)
    else
      match resolveAttribution pr body.staff with
      | .error path => (.validationError path, st)
      | .ok attr =>
        let txId := mintOid seed 0
        match processLines pr.storeId txId attr st.products merged with
        | .error e => (.lineError e, st)
        | .ok (products', inputs, serverTotal) =>
          let createdSales := insertSales seed now inputs
          let validation : ValidationInfo :=
            ⟨body.expectedTotal, serverTotal,
              body.expectedTotal.map (fun q => q == serverTotal)⟩
          (.created txId attr.staff attr.cashierType attr.cashierUser
              attr.cashierNameSnapshot merged.length serverTotal now
              createdSales validation,
            { st with products := products',
                      sales := st.sales ++ createdSales })

/-- Response of `POST /api/sales`. -/
inductive SingleResp where
  | validationError (path : String)
  | lineError (e : LineErr)
  | created (sale : Sale)
deriving DecidableEq

/-- HTTP status of a single-sale response. -/
def SingleResp.status : SingleResp → Nat
  | .validationError _ => 400
  | .lineError e => e.status
  | .created _ => 201

/-- `express-validator` chain of `POST /api/sales`. -/
def validateSingle (body : SingleSaleBody) : Option String :=
  if !isValidObjectId body.product then some "product"
  else if body.quantity < 1 then some "quantity"
  else none

/-- Handler of `POST /api/sales` (after auth and role middleware): resolve
attribution, conditionally decrement stock with a single
`findOneAndUpdate`, distinguish NotFound from InsufficientStock on a miss,
then check pricing and create the Sale row. The price check happens after
the decrement and outside any transaction, so an InvalidPricing failure
leaves the decrement in place. -/
def recordSingleSale (st : DB) (pr : Principal) (body : SingleSaleBody)
    (now : Int) (seed : Nat) : SingleResp × DB :=
  match validateSingle body with
  | some path => (.validationError path, st)
  | none =>
    match resolveAttribution pr body.staff with
    | .error path => (.validationError path, st)
    | .ok attr =>
      match decrementStock st.products body.product pr.storeId
          body.quantity with
      | none =>
        match findProduct st.products body.product pr.storeId with
        | none => (.lineError (.notFound body.product), st)
        | some existing =>
          (.lineError (.insufficientStock body.product existing.name
              existing.quantity body.quantity), st)
      | some (productDoc, products') =>
        match productDoc.price with
        | .nonFinite =>
          (.lineError (.invalidPricing body.product),
            { st with products := products' })
        | .fin unitPrice =>
          let unitCostPrice : Option ℚ :=
            match productDoc.costPrice with
            | .fin c => some c
            | .nonFinite => none
          let totalPrice := unitPrice * (body.quantity : ℚ)
          let txId := mintOid seed 0
          let sale : Sale :=
            ⟨mintOid seed 1, some txId, body.product,
              some productDoc.name, some unitPrice, unitCostPrice,
              attr.staff, attr.cashierType, attr.cashierUser,
              attr.cashierNameSnapshot, body.quantity, totalPrice,
              pr.storeId, now⟩
          (.created sale,
            { st with products := products',
                      sales := st.sales ++ [sale] })

/-! ### Transaction Reader: GET /api/sales and the transaction views -/

/-- `Math.min(Math.max(parseInt(limit ?? "50", 10) || 50, 1), 200)`
(`0` is falsy in JavaScript, hence the inner default). -/
def parseLimit (limit : Option Int) : Int :=
  let raw : Int := match limit with
    | none => 50
    | some v => if v = 0 then 50 else v
  min (max raw 1) 200

/-- `Math.max(parseInt(page ?? "1", 10) || 1, 1)`. -/
def parsePage (page : Option Int) : Int :=
  let raw : Int := match page with
    | none => 1
    | some v => if v = 0 then 1 else v
  max raw 1

def allowedSortFields : List String := ["createdAt", "totalPrice", "quantity"]

/-- `-1` for a `-`-prefixed sort parameter, else `1`
(`sortParam.startsWith("-")`). -/
def sortDirOf (sortParam : String) : Int :=
  match sortParam.toList with
  | '-' :: _ => -1
  | _ => 1

/-- The sort parameter with one leading `-` removed (the handler's
`replace` with an anchored dash pattern). -/
def sortFieldOf (sortParam : String) : String :=
  match sortParam.toList with
  | '-' :: rest => ⟨rest⟩
  | _ => sortParam

/-- The sort field actually used: the requested one when allowed, else
`createdAt`. -/
def effectiveSortField (sortParam : String) : String :=
  if allowedSortFields.contains (sortFieldOf sortParam) then
    sortFieldOf sortParam
  else "createdAt"

/-- Value of the sort field on a Sale row (all three allowed fields are
numeric). -/
def saleSortKey (field : String) (s : Sale) : ℚ :=
  if field = "totalPrice" then s.totalPrice
  else if field = "quantity" then (s.quantity : ℚ)
  else (s.createdAt : ℚ)

/-- Mongo sort spec `{[field]: dir, _id: dir}` as a Boolean comparator. -/
def saleLe (field : String) (dir : Int) (a b : Sale) : Bool :=
  let ka := saleSortKey field a
  let kb := saleSortKey field b
  if dir = -1 then decide (kb < ka ∨ (ka = kb ∧ b.id ≤ a.id))
  else decide (ka < kb ∨ (ka = kb ∧ a.id ≤ b.id))

def insertSorted {α : Type} (le : α → α → Bool) (x : α) :
    List α → List α
  | [] => [x]
  | y :: ys => if le x y then x :: y :: ys else y :: insertSorted le x ys

/-- Stable insertion sort, modelling the store's sorted reads. -/
def sortByLe {α : Type} (le : α → α → Bool) : List α → List α
  | [] => []
  | x :: xs => insertSorted le x (sortByLe le xs)

/-- The `createdAt` condition object of a query (`$gte`/`$lte` from the date
range, `$lt`/`$gt` from the cursor), all bounds conjoined. -/
structure DateCond where
  gte : Option Int
  lte : Option Int
  lt : Option Int
  gt : Option Int
deriving DecidableEq

def DateCond.holds (c : DateCond) (t : Int) : Bool :=
  (match c.gte with | some v => decide (v ≤ t) | none => true)
  && (match c.lte with | some v => decide (t ≤ v) | none => true)
  && (match c.lt with | some v => decide (t < v) | none => true)
  && (match c.gt with | some v => decide (v < t) | none => true)

/-- A Sale row matching a store-scoped query with an optional staff equality
condition and a `createdAt` condition. -/
def saleMatchesQuery (storeId : String) (staffCond : Option String)
    (cond : DateCond) (s : Sale) : Bool :=
  (s.store == storeId)
  && (match staffCond with
      | some v => s.staff == some v
      | none => true)
  && cond.holds s.createdAt

/-- Query string of `GET /api/sales`. Date-valued parameters are carried
already parsed; `cursor = some none` models a truthy cursor string that does
not parse as a date (`new Date(...)` is `NaN`), and an absent or empty
(falsy) cursor is `none`. -/
structure ListQuery where
  staff : Option String
  startDate : Option Int
  endDate : Option Int
  sort : Option String
  page : Option Int
  limit : Option Int
  cursor : Option (Option Int)
deriving DecidableEq

/-- Role scoping of `GET /api/sales`: the staff equality condition the
handler puts into the query (the principal's own id for staff principals;
the raw query parameter for admin/manager when supplied). -/
def listStaffCond (pr : Principal) (staffParam : Option String) :
    Option String :=
  if pr.userType == .staff then some pr.id
  else if (pr.role == "admin" || pr.role == "manager")
      && strTruthy staffParam then staffParam
  else none

/-- The full `createdAt` condition of `GET /api/sales`: date range plus the
cursor bound, which is added exactly when a cursor was supplied, the
effective sort field is `createdAt`, and the cursor parses as a date
(`$lt` for descending, `$gt` for ascending). -/
def listDateCond (q : ListQuery) : DateCond :=
  let base : DateCond := ⟨q.startDate, q.endDate, none, none⟩
  match q.cursor with
  | some (some c) =>
    if effectiveSortField (q.sort.getD "-createdAt") = "createdAt" then
      if sortDirOf (q.sort.getD "-createdAt") = -1 then
        { base with lt := some c }
      else { base with gt := some c }
    else base
  | _ => base

structure ListMeta where
  total : Nat
  limit : Int
  page : Option Int
  nextCursor : Option Int
deriving DecidableEq

/-- Response of `GET /api/sales`. `serverError` is the generic 500 branch;
it is reached when Mongoose fails to cast the raw admin/manager `staff`
filter string to an ObjectId (a `CastError` thrown by `countDocuments`). -/
inductive ListResp where
  | serverError
  | ok (data : List Sale) (meta : ListMeta)
deriving DecidableEq

def ListResp.status : ListResp → Nat
  | .serverError => 500
  | .ok _ _ => 200

/-- Handler of `GET /api/sales` (auth only, no role middleware): filter by
tenant, role scoping, date range and cursor bound; count matching rows
*after* the cursor bound was added; then serve either cursor pagination
(fetch limit+1 to detect a further page) or offset pagination. The
admin/manager `staff` filter is put into the query unvalidated; a malformed
value makes the store's cast fail, surfacing as the generic 500. -/
def listSalesHandler (st : DB) (pr : Principal) (q : ListQuery) : ListResp :=
  let parsedLimit := parseLimit q.limit
  let parsedPage := parsePage q.page
  let sortParam := q.sort.getD "-createdAt"
  let dir := sortDirOf sortParam
  let effField := effectiveSortField sortParam
  let staffCond := listStaffCond pr q.staff
  let castFails := (pr.userType != .staff)
    && (pr.role == "admin" || pr.role == "manager") && strTruthy q.staff
    && !isValidObjectId (q.staff.getD "")
  if castFails then .serverError
  else
    let matched := st.sales.filter
      (saleMatchesQuery pr.storeId staffCond (listDateCond q))
    let total := matched.length
    let sorted := sortByLe (saleLe effField dir) matched
    if q.cursor.isSome && (effField == "createdAt") then
      let results := sorted.take (parsedLimit.toNat + 1)
      if parsedLimit.toNat < results.length then
        let data := results.take parsedLimit.toNat
        .ok data ⟨total, parsedLimit, none, data.getLast?.map (·.createdAt)⟩
      else
        .ok results ⟨total, parsedLimit, none, none⟩
    else
      let data := (sorted.drop ((parsedPage - 1).toNat * parsedLimit.toNat)
        ).take parsedLimit.toNat
      .ok data ⟨total, parsedLimit,
        if q.cursor.isSome then none else some parsedPage, none⟩

/-- Query string of `GET /api/sales/transactions`. -/
structure TxQuery where
  staff : Option String
  startDate : Option Int
  endDate : Option Int
  page : Option Int
  limit : Option Int
deriving DecidableEq

/-- `$ifNull: ["$transactionId", "$_id"]` — the grouping key of a Sale row,
falling back to the row's own id. -/
def txKey (s : Sale) : String :=
  match s.transactionId with
  | some t => t
  | none => s.id

/-- Group keys in order of first appearance. -/
def txKeys (rows : List Sale) : List String :=
  rows.foldl (fun ks s => if txKey s ∈ ks then ks else ks ++ [txKey s]) []

def groupRows (rows : List Sale) (k : String) : List Sale :=
  rows.filter (fun s => txKey s == k)

/-- One row of the transaction-summary listing. -/
structure TxSummary where
  id : String
  staff : Option String
  staffName : Option String
  cashierType : CashierType
  cashierUser : Option String
  cashierName : Option String
  createdAt : Int
  lastCreatedAt : Int
  total : ℚ
  itemsCount : Nat
  totalQuantity : Int
deriving DecidableEq

/-- Display name of a staff id via the `$lookup` into the staff
collection. -/
def staffLookupName (staffs : List StaffDoc) (sid? : Option String) :
    Option String :=
  sid?.bind (fun sid => (staffs.find? (fun d => d.id == sid)).map (·.name))

/-- The `$group` stage (with `$first`/`$min`/`$max`/`$sum`) followed by the
`$lookup`/`$addFields`/`$project` display-name resolution, on one group. -/
def summarizeGroup (staffs : List StaffDoc) (k : String) :
    List Sale → Option TxSummary
  | [] => none
  | s0 :: rest =>
    let grp := s0 :: rest
    let staffName : Option String :=
      match s0.cashierNameSnapshot with
      | some n => some n
      | none => staffLookupName staffs s0.staff
    some ⟨k, s0.staff, staffName, s0.cashierType, s0.cashierUser,
      (match s0.cashierNameSnapshot with
        | some n => some n
        | none => staffName),
      grp.foldl (fun m s => min m s.createdAt) s0.createdAt,
      grp.foldl (fun m s => max m s.createdAt) s0.createdAt,
      (grp.map (fun s => s.totalPrice)).sum,
      grp.length,
      (grp.map (fun s => s.quantity)).sum⟩

/-- `$sort: {lastCreatedAt: -1, _id: -1}` on the grouped stream. -/
def txSummaryLe (a b : TxSummary) : Bool :=
  decide (b.lastCreatedAt < a.lastCreatedAt
    ∨ (a.lastCreatedAt = b.lastCreatedAt ∧ b.id ≤ a.id))

/-- Rows selected by the `$match` stage of `GET /api/sales/transactions`. -/
def txMatchedRows (st : DB) (pr : Principal) (q : TxQuery) : List Sale :=
  let staffCond : Option String :=
    if pr.userType == .staff then some pr.id
    else if (pr.role == "admin" || pr.role == "manager")
        && strTruthy q.staff then q.staff
    else none
  st.sales.filter
    (saleMatchesQuery pr.storeId staffCond ⟨q.startDate, q.endDate, none, none⟩)

/-- Response of `GET /api/sales/transactions`. -/
inductive TxListResp where
  | validationError (path : String)
  | ok (data : List TxSummary) (total : Nat) (limit : Int) (page : Int)
deriving DecidableEq

def TxListResp.status : TxListResp → Nat
  | .validationError _ => 400
  | .ok _ _ _ _ => 200

/-- Handler of `GET /api/sales/transactions`: validate the admin/manager
staff filter, match, group by `txKey`, sort newest-first by
`lastCreatedAt`, offset-paginate; `meta.total` counts distinct groups. -/
def listTransactions (st : DB) (pr : Principal) (q : TxQuery) : TxListResp :=
  let parsedLimit := parseLimit q.limit
  let parsedPage := parsePage q.page
  if (pr.userType != .staff) && (pr.role == "admin" || pr.role == "manager")
      && strTruthy q.staff && !isValidObjectId (q.staff.getD "") then
    .validationError "staff"
  else
    let rows := txMatchedRows st pr q
    let keys := txKeys rows
    let summaries :=
      keys.filterMap (fun k => summarizeGroup st.staffs k (groupRows rows k))
    let sorted := sortByLe txSummaryLe summaries
    let data := (sorted.drop ((parsedPage - 1).toNat * parsedLimit.toNat)
      ).take parsedLimit.toNat
    .ok data keys.length parsedLimit parsedPage

/-- Rows selected by the shared query of transaction detail and receipt:
`{store, $or: [{transactionId: oid}, {_id: oid}]}` plus staff
self-scoping. -/
def txDetailRows (st : DB) (pr : Principal) (oid : String) : List Sale :=
  st.sales.filter (fun s =>
    (s.store == pr.storeId)
    && (s.transactionId == some oid || s.id == oid)
    && (pr.userType != .staff || s.staff == some pr.id))

/-- `a || b || null` over optional strings (empty strings are falsy). -/
def optOr (a b : Option String) : Option String :=
  match jsOrNull a with
  | some s => some s
  | none => jsOrNull b

/-- `firstStaff?._id ? String(firstStaff._id) : String(firstStaff)` after
`populate("staff")`: the populated staff document's id, or the string
`"null"` when the reference is null or dangling. -/
def populatedStaffStr (staffs : List StaffDoc) (sid? : Option String) :
    String :=
  match sid?.bind (fun sid => staffs.find? (fun d => d.id == sid)) with
  | some d => d.id
  | none => "null"

/-- Transaction header of the detail and receipt responses. -/
structure TxDetailTransaction where
  id : String
  staff : String
  staffName : Option String
  cashierType : CashierType
  cashierUser : Option String
  cashierName : Option String
  itemsCount : Nat
  totalQuantity : Int
  total : ℚ
  createdAt : Int
  lastCreatedAt : Int
deriving DecidableEq

/-- Response of `GET /api/sales/transactions/:transactionId`. -/
inductive TxDetailResp where
  | validationError (path : String)
  | notFound
  | ok (transaction : TxDetailTransaction) (sales : List Sale)
deriving DecidableEq

def TxDetailResp.status : TxDetailResp → Nat
  | .validationError _ => 400
  | .notFound => 404
  | .ok _ _ => 200

/-- Handler of `GET /api/sales/transactions/:transactionId`: validate the
path parameter, fetch the matching rows oldest-first, 404 when none, and
rebuild the transaction header from the first row. -/
def txDetail (st : DB) (pr : Principal) (rawId : String) : TxDetailResp :=
  let oid := jsTrim rawId
  if !isValidObjectId oid then .validationError "transactionId"
  else
    let sales := sortByLe (fun a b => decide (a.createdAt ≤ b.createdAt))
      (txDetailRows st pr oid)
    match sales with
    | [] => .notFound
    | s0 :: _ =>
      let cashierName := optOr s0.cashierNameSnapshot
        (staffLookupName st.staffs s0.staff)
      .ok
        ⟨txKey s0, populatedStaffStr st.staffs s0.staff, cashierName,
          s0.cashierType, s0.cashierUser, cashierName, sales.length,
          (sales.map (fun s => s.quantity)).sum,
          (sales.map (fun s => s.totalPrice)).sum,
          s0.createdAt,
          (sales.getLast?.map (fun s => s.createdAt)).getD s0.createdAt⟩
        sales

/-- `Product.findById` as performed by `populate("product")` (unscoped by
tenant). -/
def findProductById (products : List Product) (pid : String) :
    Option Product :=
  products.find? (fun p => p.id == pid)

/-- One flattened line of the receipt payload. -/
structure ReceiptLine where
  saleId : String
  productId : String
  name : Option String
  sku : Option String
  barcode : Option String
  unitPrice : JsNum
  quantity : Int
  total : ℚ
deriving DecidableEq

/-- Flattening of one Sale row into a receipt line (snapshots preferred over
the populated live product). -/
def toReceiptLine (products : List Product) (s : Sale) : ReceiptLine :=
  let productOpt := findProductById products s.product
  ⟨s.id, s.product,
    (match jsOrNull s.productNameSnapshot with
      | some n => some n
      | none => productOpt.map (fun p => p.name)),
    productOpt.bind (fun p => p.sku),
    productOpt.bind (fun p => p.barcode),
    (match s.unitPrice with
      | some u => .fin u
      | none =>
        match productOpt with
        | some p => p.price
        | none => .fin 0),
    s.quantity, s.totalPrice⟩

/-- Response of `GET /api/sales/transactions/:transactionId/receipt`. -/
inductive ReceiptResp where
  | validationError (path : String)
  | notFound
  | ok (transaction : TxDetailTransaction) (items : List ReceiptLine)
deriving DecidableEq

def ReceiptResp.status : ReceiptResp → Nat
  | .validationError _ => 400
  | .notFound => 404
  | .ok _ _ => 200

/-- Handler of `GET /api/sales/transactions/:transactionId/receipt`: same
lookup as the detail view, reshaped into flattened lines with the header
totals recomputed by summing the lines. -/
def txReceipt (st : DB) (pr : Principal) (rawId : String) : ReceiptResp :=
  let oid := jsTrim rawId
  if !isValidObjectId oid then .validationError "transactionId"
  else
    let sales := sortByLe (fun a b => decide (a.createdAt ≤ b.createdAt))
      (txDetailRows st pr oid)
    match sales with
    | [] => .notFound
    | s0 :: _ =>
      let cashierName := optOr s0.cashierNameSnapshot
        (staffLookupName st.staffs s0.staff)
      let lineItems := sales.map (toReceiptLine st.products)
      .ok
        ⟨txKey s0, populatedStaffStr st.staffs s0.staff, cashierName,
          s0.cashierType, s0.cashierUser, cashierName, lineItems.length,
          (lineItems.map (fun li => li.quantity)).sum,
          (lineItems.map (fun li => li.total)).sum,
          s0.createdAt,
          (sales.getLast?.map (fun s => s.createdAt)).getD s0.createdAt⟩
        lineItems

/-! ### The request-level step function (for sequences of writes) -/

/-- A write request against the engine. -/
inductive Request where
  | single (pr : Principal) (body : SingleSaleBody) (now : Int) (seed : Nat)
  | checkout (pr : Principal) (body : CheckoutBody) (now : Int) (seed : Nat)

/-- The state after handling one write request. -/
def applyRequest (st : DB) : Request → DB
  | .single pr body now seed => (recordSingleSale st pr body now seed).2
  | .checkout pr body now seed => (checkoutHandler st pr body now seed).2

/-- Invariant: every stored product quantity is non-negative. -/
def stockNonneg (st : DB) : Prop :=
  ∀ p ∈ st.products, 0 ≤ p.quantity

/-! ### Concrete fixtures (used by the witness theorems) -/

def storeA : String := "aaaaaaaaaaaaaaaaaaaaaaaa"
def milkId : String := "bbbbbbbbbbbbbbbbbbbbbbbb"
def breadId : String := "cccccccccccccccccccccccc"
def staffAId : String := "dddddddddddddddddddddddd"

def milk : Product :=
  ⟨milkId, storeA, "Milk", none, none, .fin 500, .fin 350, 20⟩
def bread : Product :=
  ⟨breadId, storeA, "Bread", none, none, .fin 300, .fin 200, 10⟩

def staffADoc : StaffDoc := ⟨staffAId, "Ada", storeA⟩

def db0 : DB := ⟨[milk, bread], [staffADoc], []⟩

def ownerA : Principal := ⟨storeA, some "Owner", "admin", .user, storeA⟩
def staffA : Principal := ⟨staffAId, some "Ada", "staff", .staff, storeA⟩

/-- The Sale row created by `recordSingleSale db0 staffA ⟨milkId, 1, some storeA⟩ 100 7`. -/
def saleW : Sale :=
  ⟨mintOid 7 1, some (mintOid 7 0), milkId, some "Milk", some 500, some 350,
    some staffAId, .staff, none, some "Ada", 1, 500, storeA, 100⟩

/-- A product whose stored price is not a finite number (e.g. a document
whose `price` casts to `NaN`), with stock 5. -/
def phantomId : String := "eeeeeeeeeeeeeeeeeeeeeeee"

def phantom : Product :=
  ⟨phantomId, storeA, "Phantom", none, none, .nonFinite, .fin 100, 5⟩

def db1 : DB := ⟨[phantom], [staffADoc], []⟩

def otherStaffId : String := "ffffffffffffffffffffffff"
def tx1 : String := "111111111111111111111111"

/-- Ledger fixture: two rows by staff Ada under one transaction, one row by
another staff, one legacy owner row without `transactionId`. -/
def sA1 : Sale :=
  ⟨"000000000000000000000001", some tx1, milkId, some "Milk", some 500,
    some 350, some staffAId, .staff, none, some "Ada", 1, 500, storeA, 10⟩

def sA2 : Sale :=
  ⟨"000000000000000000000002", some tx1, breadId, some "Bread", some 300,
    some 200, some staffAId, .staff, none, some "Ada", 2, 600, storeA, 20⟩

def sB1 : Sale :=
  ⟨"000000000000000000000003", some "222222222222222222222222", milkId,
    some "Milk", some 500, some 350, some otherStaffId, .staff, none,
    some "Bob", 1, 500, storeA, 30⟩

def sO1 : Sale :=
  ⟨"000000000000000000000004", none, milkId, some "Milk", some 500,
    some 350, none, .user, some storeA, some "Owner", 3, 1500, storeA, 40⟩

def dbL : DB := ⟨[milk, bread], [staffADoc], [sA1, sA2, sB1, sO1]⟩

/-- First row of the checkout `[(Milk, 2), (Bread, 1)]` by `ownerA`. -/
def saleW1 : Sale :=
  ⟨mintOid 7 1, some (mintOid 7 0), milkId, some "Milk", some 500, some 350,
    none, .user, some storeA, some "Owner", 2, 1000, storeA, 100⟩

/-- Second row of the checkout `[(Milk, 2), (Bread, 1)]` by `ownerA`. -/
def saleW2 : Sale :=
  ⟨mintOid 7 2, some (mintOid 7 0), breadId, some "Bread", some 300, some 200,
    none, .user, some storeA, some "Owner", 1, 300, storeA, 100⟩

section RatKernelEval
/- The Batteries rational-number operations are `@[irreducible]`, which
blocks `decide` from evaluating concrete handler runs; re-allow unfolding
locally so witnesses can be checked by evaluation. -/
attribute [local semireducible] Rat.mul Rat.add Rat.sub Rat.inv Rat.ofScientific

/-! ### Lemmas about the conditional decrement -/

theorem decrementStock_nonneg {ps : List Product} {pid storeId : String}
    {qty : Int} {d : Product} {ps' : List Product}
    (hps : ∀ p ∈ ps, 0 ≤ p.quantity)
    (h : decrementStock ps pid storeId qty = some (d, ps')) :
    ∀ p ∈ ps', 0 ≤ p.quantity := by
  induction ps generalizing ps' with
  | nil => simp [decrementStock] at h
  | cons p rest ih =>
    rw [decrementStock] at h
    split at h
    · next hcond =>
      obtain ⟨-, -, hq⟩ := hcond
      cases h
      intro x hx
      rcases List.mem_cons.mp hx with hx | hx
      · subst hx; simpa using sub_nonneg.mpr hq
      · exact hps x (List.mem_cons_of_mem _ hx)
    · next =>
      cases hrec : decrementStock rest pid storeId qty with
      | none => rw [hrec] at h; cases h
      | some pr =>
        obtain ⟨u, rest'⟩ := pr
        rw [hrec] at h
        cases h
        intro x hx
        rcases List.mem_cons.mp hx with hx | hx
        · subst hx; exact hps x (List.mem_cons_self _ _)
        · exact ih (fun y hy => hps y (List.mem_cons_of_mem _ hy)) hrec x hx

theorem processLines_nonneg {storeId txId : String} {attr : Attribution}
    {ps ps' : List Product} {lines : List (String × Int)}
    {ins : List SaleInput} {t : ℚ}
    (hps : ∀ p ∈ ps, 0 ≤ p.quantity)
    (h : processLines storeId txId attr ps lines = .ok (ps', ins, t)) :
    ∀ p ∈ ps', 0 ≤ p.quantity := by
  induction lines generalizing ps ins t with
  | nil =>
    rw [processLines] at h
    cases h
    exact hps
  | cons line rest ih =>
    obtain ⟨pid, qty⟩ := line
    rw [processLines] at h
    split at h
    · split at h <;> simp at h
    · next doc ps₁ hdec =>
      split at h
      · simp at h
      · split at h
        all_goals
          split at h
          · simp at h
          · next fp ins' t' hrest =>
            cases h
            exact ih (decrementStock_nonneg hps hdec) hrest

theorem recordSingleSale_nonneg {st : DB} {pr : Principal}
    {body : SingleSaleBody} {now : Int} {seed : Nat}
    (hst : stockNonneg st) :
    stockNonneg (recordSingleSale st pr body now seed).2 := by
  rw [recordSingleSale]
  split
  · exact hst
  · split
    · exact hst
    · split
      · split
        · exact hst
        · exact hst
      · next doc ps' hdec =>
        split
        · intro p hp
          exact decrementStock_nonneg hst hdec p hp
        · intro p hp
          exact decrementStock_nonneg hst hdec p hp

theorem checkoutHandler_nonneg {st : DB} {pr : Principal}
    {body : CheckoutBody} {now : Int} {seed : Nat}
    (hst : stockNonneg st) :
    stockNonneg (checkoutHandler st pr body now seed).2 := by
  rw [checkoutHandler]
  dsimp only
  split
  · exact hst
  · split
    · exact hst
    · split
      · exact hst
      · split
        · exact hst
        · next ps' ins t hproc =>
          intro p hp
          exact processLines_nonneg hst hproc p hp

/-- A successful conditional decrement fired on a product of the requested
id and tenant whose stock was at least the requested quantity, and the
returned document is that product decremented. -/
theorem decrementStock_matched {ps ps' : List Product} {pid storeId : String}
    {qty : Int} {d : Product}
    (h : decrementStock ps pid storeId qty = some (d, ps')) :
    ∃ p ∈ ps, p.id = pid ∧ p.store = storeId ∧ qty ≤ p.quantity ∧
      d = { p with quantity := p.quantity - qty } := by
  induction ps generalizing ps' with
  | nil => simp [decrementStock] at h
  | cons p rest ih =>
    rw [decrementStock] at h
    split at h
    · next hcond =>
      obtain ⟨h1, h2, h3⟩ := hcond
      cases h
      exact ⟨p, List.mem_cons_self _ _, h1, h2, h3, rfl⟩
    · cases hrec : decrementStock rest pid storeId qty with
      | none => rw [hrec] at h; cases h
      | some pr =>
        obtain ⟨u, rest'⟩ := pr
        rw [hrec] at h
        cases h
        obtain ⟨x, hx, hrest⟩ := ih hrec
        exact ⟨x, List.mem_cons_of_mem _ hx, hrest⟩

/-- Exhaustive description of the checkout handler's outcomes: a validation
rejection (state unchanged), a line error surfaced from the transaction
(state unchanged — rollback), or a created transaction (stock updated, rows
appended). -/
theorem checkoutHandler_cases (st : DB) (pr : Principal) (body : CheckoutBody)
    (now : Int) (seed : Nat) :
    (∃ path, (validateCheckout body = some path ∨
        (validateCheckout body = none ∧
          (mergeItems body.items).isEmpty = true ∧ path = "items") ∨
        (validateCheckout body = none ∧
          (mergeItems body.items).isEmpty = false ∧
          resolveAttribution pr body.staff = .error path)) ∧
      checkoutHandler st pr body now seed =
        (.validationError path, st)) ∨
    (∃ attr e, resolveAttribution pr body.staff = .ok attr ∧
      processLines pr.storeId (mintOid seed 0) attr st.products
        (mergeItems body.items) = .error e ∧
      checkoutHandler st pr body now seed = (.lineError e, st)) ∨
    (∃ attr ps' ins t, resolveAttribution pr body.staff = .ok attr ∧
      validateCheckout body = none ∧
      (mergeItems body.items).isEmpty = false ∧
      processLines pr.storeId (mintOid seed 0) attr st.products
        (mergeItems body.items) = .ok (ps', ins, t) ∧
      checkoutHandler st pr body now seed =
        (.created (mintOid seed 0) attr.staff attr.cashierType
          attr.cashierUser attr.cashierNameSnapshot
          (mergeItems body.items).length t now (insertSales seed now ins)
          ⟨body.expectedTotal, t, body.expectedTotal.map (fun q => q == t)⟩,
         { st with products := ps',
                   sales := st.sales ++ insertSales seed now ins })) := by
  rw [checkoutHandler]
  dsimp only
  split
  · next path hval => exact Or.inl ⟨path, Or.inl hval, rfl⟩
  · next hval =>
    split
    · next hemp =>
      exact Or.inl ⟨"items", Or.inr (Or.inl ⟨hval, hemp, rfl⟩), rfl⟩
    · next hne =>
      split
      · next path hattr =>
        exact Or.inl ⟨path,
          Or.inr (Or.inr ⟨hval, Bool.of_not_eq_true hne, hattr⟩), rfl⟩
      · next attr hattr =>
        split
        · next e hproc =>
          exact Or.inr (Or.inl ⟨attr, e, hattr, hproc, rfl⟩)
        · next ps' ins t hproc =>
          exact Or.inr (Or.inr ⟨attr, ps', ins, t, hattr, hval,
            Bool.of_not_eq_true hne, hproc, rfl⟩)

/-- Exhaustive description of the single-sale handler's outcomes. Note the
invalid-pricing outcome: the decrement has already been committed and is
not rolled back. -/
theorem recordSingleSale_cases (st : DB) (pr : Principal)
    (body : SingleSaleBody) (now : Int) (seed : Nat) :
    (∃ path, recordSingleSale st pr body now seed =
      (.validationError path, st)) ∨
    (decrementStock st.products body.product pr.storeId body.quantity = none ∧
     findProduct st.products body.product pr.storeId = none ∧
     recordSingleSale st pr body now seed =
       (.lineError (.notFound body.product), st)) ∨
    (∃ p, decrementStock st.products body.product pr.storeId body.quantity
        = none ∧
      findProduct st.products body.product pr.storeId = some p ∧
      recordSingleSale st pr body now seed =
        (.lineError (.insufficientStock body.product p.name p.quantity
          body.quantity), st)) ∨
    (∃ attr doc ps', resolveAttribution pr body.staff = .ok attr ∧
      decrementStock st.products body.product pr.storeId body.quantity
        = some (doc, ps') ∧
      doc.price = .nonFinite ∧
      recordSingleSale st pr body now seed =
        (.lineError (.invalidPricing body.product),
          { st with products := ps' })) ∨
    (∃ attr doc ps' up, resolveAttribution pr body.staff = .ok attr ∧
      validateSingle body = none ∧
      decrementStock st.products body.product pr.storeId body.quantity
        = some (doc, ps') ∧
      doc.price = .fin up ∧
      recordSingleSale st pr body now seed =
        (.created ⟨mintOid seed 1, some (mintOid seed 0), body.product,
            some doc.name, some up,
            (match doc.costPrice with
              | .fin c => some c
              | .nonFinite => none),
            attr.staff, attr.cashierType, attr.cashierUser,
            attr.cashierNameSnapshot, body.quantity,
            up * (body.quantity : ℚ), pr.storeId, now⟩,
          { st with products := ps',
                    sales := st.sales ++
                      [⟨mintOid seed 1, some (mintOid seed 0), body.product,
                        some doc.name, some up,
                        (match doc.costPrice with
                          | .fin c => some c
                          | .nonFinite => none),
                        attr.staff, attr.cashierType, attr.cashierUser,
                        attr.cashierNameSnapshot, body.quantity,
                        up * (body.quantity : ℚ), pr.storeId, now⟩] })) := by
  rw [recordSingleSale]
  dsimp only
  split
  · exact Or.inl ⟨_, rfl⟩
  · next hval =>
    split
    · exact Or.inl ⟨_, rfl⟩
    · next attr hattr =>
      cases hdec : decrementStock st.products body.product pr.storeId
          body.quantity with
      | none =>
        cases hfind : findProduct st.products body.product pr.storeId with
        | none => exact Or.inr (Or.inl ⟨rfl, rfl, rfl⟩)
        | some p => exact Or.inr (Or.inr (Or.inl ⟨p, rfl, rfl, rfl⟩))
      | some pair =>
        obtain ⟨doc, ps'⟩ := pair
        dsimp only
        cases hprice : doc.price with
        | nonFinite =>
          exact Or.inr (Or.inr (Or.inr (Or.inl
            ⟨attr, doc, ps', hattr, rfl, hprice, rfl⟩)))
        | fin up =>
          exact Or.inr (Or.inr (Or.inr (Or.inr
            ⟨attr, doc, ps', up, hattr, hval, rfl, hprice, rfl⟩)))

/-- A failing line loop names a product id of one of its lines. -/
theorem processLines_error_mem {storeId txId : String} {attr : Attribution}
    {ps : List Product} {lines : List (String × Int)} {e : LineErr}
    (h : processLines storeId txId attr ps lines = .error e) :
    e.productId ∈ lines.map Prod.fst := by
  induction lines generalizing ps with
  | nil => rw [processLines] at h; cases h
  | cons line rest ih =>
    obtain ⟨pid, qty⟩ := line
    rw [processLines] at h
    split at h
    · split at h
      · cases h
        exact List.mem_cons_self _ _
      · cases h
        exact List.mem_cons_self _ _
    · next doc ps₁ hdec =>
      split at h
      · cases h
        exact List.mem_cons_self _ _
      · split at h
        all_goals
          split at h
          · next e' hrest =>
            cases h
            exact List.mem_cons_of_mem _ (ih hrest)
          · simp at h

/-- Attribution facts guaranteed by `resolveAttribution` (for principals
with a non-empty id, which the auth middleware always supplies). -/
theorem resolveAttribution_spec {pr : Principal} {bodyStaff : Option String}
    {attr : Attribution} (hid : pr.id ≠ "")
    (h : resolveAttribution pr bodyStaff = .ok attr) :
    (attr.cashierType = .staff ↔ attr.staff ≠ none ∧ attr.cashierUser = none)
    ∧ (attr.cashierType = .user ↔ attr.cashierUser ≠ none ∧ attr.staff = none)
    ∧ (pr.userType = .staff →
        attr.staff = some pr.id ∧ attr.cashierType = .staff)
    ∧ (pr.userType = .user →
        attr.cashierUser = some pr.id ∧ attr.cashierType = .user) := by
  rw [resolveAttribution] at h
  split at h
  · next hstaff =>
    cases h
    refine ⟨by simp, by simp, fun _ => ⟨rfl, rfl⟩, fun hu => ?_⟩
    rw [hu] at hstaff
    simp at hstaff
  · next hstaff =>
    split at h
    · cases h
    · cases h
      refine ⟨by simp [idOrNull, hid], by simp [idOrNull, hid],
        fun hs => ?_, fun _ => by simp [idOrNull, hid]⟩
      rw [hs] at hstaff
      simp at hstaff

theorem decrementStock_doc_id {ps ps' : List Product} {pid storeId : String}
    {qty : Int} {d : Product}
    (h : decrementStock ps pid storeId qty = some (d, ps')) :
    d.id = pid ∧ d.store = storeId := by
  obtain ⟨p, -, h1, h2, -, hd⟩ := decrementStock_matched h
  subst hd
  exact ⟨h1, h2⟩

/-- A successful line loop stages exactly one row per line, in line order,
with the running total the sum of the rows' totals, and every staged row
carrying the shared transaction id, tenant and attribution and a total equal
to its unit price times its quantity. -/
theorem processLines_inputs {storeId txId : String} {attr : Attribution}
    {ps ps' : List Product} {lines : List (String × Int)}
    {ins : List SaleInput} {t : ℚ}
    (h : processLines storeId txId attr ps lines = .ok (ps', ins, t)) :
    ins.map (fun i => (i.product, i.quantity)) = lines ∧
    t = (ins.map (fun i => i.totalPrice)).sum ∧
    ∀ i ∈ ins, i.staff = attr.staff ∧ i.cashierType = attr.cashierType ∧
      i.cashierUser = attr.cashierUser ∧
      i.cashierNameSnapshot = attr.cashierNameSnapshot ∧
      i.transactionId = txId ∧ i.store = storeId ∧
      i.totalPrice = i.unitPrice * (i.quantity : ℚ) := by
  induction lines generalizing ps ins t with
  | nil =>
    rw [processLines] at h
    cases h
    exact ⟨rfl, by simp, by simp⟩
  | cons line rest ih =>
    obtain ⟨pid, qty⟩ := line
    rw [processLines] at h
    split at h
    · split at h <;> simp at h
    · next doc ps₁ hdec =>
      split at h
      · simp at h
      · split at h
        all_goals
          split at h
          · simp at h
          · next fp ins' t' hrest =>
            cases h
            obtain ⟨h1, h2, h3⟩ := ih hrest
            obtain ⟨hdid, -⟩ := decrementStock_doc_id hdec
            refine ⟨by simp [h1, hdid], by simp [h2], ?_⟩
            intro i hi
            rcases List.mem_cons.mp hi with hi | hi
            · subst hi
              exact ⟨rfl, rfl, rfl, rfl, rfl, rfl, rfl⟩
            · exact h3 i hi

theorem snd_mem_of_mem_enumFrom {α : Type} {p : Nat × α} {l : List α}
    {n : Nat} (h : p ∈ l.enumFrom n) : p.2 ∈ l := by
  induction l generalizing n with
  | nil => simp [List.enumFrom] at h
  | cons a as ih =>
    rw [List.enumFrom] at h
    rcases List.mem_cons.mp h with h | h
    · subst h
      exact List.mem_cons_self _ _
    · exact List.mem_cons_of_mem _ (ih h)

/-- Every inserted Sale row comes from a staged input, with the persisted
fields carried over verbatim (plus a fresh id and the shared timestamp). -/
theorem mem_insertSales {seed : Nat} {now : Int} {ins : List SaleInput}
    {s : Sale} (h : s ∈ insertSales seed now ins) :
    ∃ i ∈ ins, s.product = i.product ∧ s.quantity = i.quantity ∧
      s.totalPrice = i.totalPrice ∧ s.unitPrice = some i.unitPrice ∧
      s.staff = i.staff ∧ s.cashierType = i.cashierType ∧
      s.cashierUser = i.cashierUser ∧
      s.cashierNameSnapshot = i.cashierNameSnapshot ∧
      s.transactionId = some i.transactionId ∧ s.store = i.store ∧
      s.createdAt = now := by
  rw [insertSales] at h
  obtain ⟨pair, hpair, hs⟩ := List.mem_map.mp h
  subst hs
  rw [List.enum] at hpair
  exact ⟨pair.2, snd_mem_of_mem_enumFrom hpair, rfl, rfl, rfl, rfl, rfl,
    rfl, rfl, rfl, rfl, rfl, rfl⟩

/-- `addMerged` adds `q` to the entry of `pid` and leaves every other
entry's value alone. -/
theorem mergedQty_addMerged (acc : List (String × Int)) (pid pid' : String)
    (q : Int) :
    mergedQty (addMerged acc pid q) pid'
      = mergedQty acc pid' + (if pid' = pid then q else 0) := by
  induction acc with
  | nil =>
    by_cases h : pid' = pid
    · subst h; simp [mergedQty, addMerged]
    · simp [mergedQty, addMerged, h, Ne.symm h]
  | cons e rest ih =>
    obtain ⟨p, q0⟩ := e
    rw [addMerged]
    by_cases hp : p = pid
    · rw [if_pos hp]
      by_cases hq : p = pid'
      · have hpp : pid' = pid := hq.symm.trans hp
        simp [mergedQty, hq, hpp]
      · have hpp : ¬pid' = pid := fun hh => hq (hp.trans hh.symm)
        simp [mergedQty, hq, hpp]
    · rw [if_neg hp]
      by_cases hq : p = pid'
      · have hpp : ¬pid' = pid := fun hh => hp (hq.trans hh)
        simp [mergedQty, hq, hpp]
      · simp [mergedQty, hq, ih]

theorem keys_addMerged (acc : List (String × Int)) (pid : String) (q : Int) :
    (addMerged acc pid q).map Prod.fst
      = if pid ∈ acc.map Prod.fst then acc.map Prod.fst
        else acc.map Prod.fst ++ [pid] := by
  induction acc with
  | nil => simp [addMerged]
  | cons e rest ih =>
    obtain ⟨p, q0⟩ := e
    rw [addMerged]
    by_cases hp : p = pid
    · subst hp
      simp
    · simp only [List.map_cons, List.mem_cons]
      rw [if_neg hp]
      simp only [List.map_cons, ih]
      split
      · next hmem => rw [if_pos (Or.inr hmem)]
      · next hmem =>
        rw [if_neg ?_]
        · simp
        · intro hor
          rcases hor with hor | hor
          · exact hp hor.symm
          · exact hmem hor

theorem nodup_keys_addMerged {acc : List (String × Int)} (pid : String)
    (q : Int) (h : (acc.map Prod.fst).Nodup) :
    ((addMerged acc pid q).map Prod.fst).Nodup := by
  rw [keys_addMerged]
  split
  · exact h
  · next hmem =>
    simp only [List.nodup_append, List.nodup_cons]
    exact ⟨h, by simp, by simpa using hmem⟩

/-- The merged list has no duplicate product ids. -/
theorem nodup_keys_mergeItems (items : List CheckoutItem) :
    ((mergeItems items).map Prod.fst).Nodup := by
  rw [mergeItems]
  suffices haux : ∀ (l : List CheckoutItem) (acc : List (String × Int)),
      (acc.map Prod.fst).Nodup →
      ((l.foldl (fun acc it =>
        if it.product = "" ∨ it.quantity < 1 then acc
        else addMerged acc it.product it.quantity) acc).map Prod.fst).Nodup by
    exact haux items [] (by simp)
  intro l
  induction l with
  | nil => intro acc h; exact h
  | cons it rest ih =>
    intro acc h
    rw [List.foldl_cons]
    split
    · exact ih acc h
    · exact ih _ (nodup_keys_addMerged it.product it.quantity h)

theorem mem_keys_addMerged (acc : List (String × Int)) (pid pid' : String)
    (q : Int) :
    pid' ∈ (addMerged acc pid q).map Prod.fst
      ↔ pid' ∈ acc.map Prod.fst ∨ pid' = pid := by
  rw [keys_addMerged]
  split
  · next hmem =>
    constructor
    · exact Or.inl
    · intro h
      rcases h with h | h
      · exact h
      · subst h; exact hmem
  · simp
/-- A product id is a merged key iff some unskipped item carries it. -/
theorem mem_keys_mergeItems (items : List CheckoutItem) (pid : String) :
    pid ∈ (mergeItems items).map Prod.fst
      ↔ ∃ it ∈ items, ¬(it.product = "" ∨ it.quantity < 1)
          ∧ it.product = pid := by
  rw [mergeItems]
  suffices haux : ∀ (l : List CheckoutItem) (acc : List (String × Int)),
      pid ∈ (l.foldl (fun acc it =>
          if it.product = "" ∨ it.quantity < 1 then acc
          else addMerged acc it.product it.quantity) acc).map Prod.fst
        ↔ pid ∈ acc.map Prod.fst ∨
          ∃ it ∈ l, ¬(it.product = "" ∨ it.quantity < 1)
            ∧ it.product = pid by
    rw [haux items []]
    simp
  intro l
  induction l with
  | nil => intro acc; simp
  | cons it rest ih =>
    intro acc
    rw [List.foldl_cons]
    split
    · next hskip =>
      rw [ih acc]
      constructor
      · intro h
        rcases h with h | h
        · exact Or.inl h
        · exact Or.inr ⟨h.choose, List.mem_cons_of_mem _ h.choose_spec.1,
            h.choose_spec.2⟩
      · intro h
        rcases h with h | ⟨x, hx, hvalid, hpidx⟩
        · exact Or.inl h
        · rcases List.mem_cons.mp hx with hx | hx
          · subst hx; exact absurd hskip hvalid
          · exact Or.inr ⟨x, hx, hvalid, hpidx⟩
    · next hvalid =>
      rw [ih _]
      rw [mem_keys_addMerged]
      constructor
      · intro h
        rcases h with (h | h) | h
        · exact Or.inl h
        · exact Or.inr ⟨it, List.mem_cons_self _ _, hvalid, h.symm⟩
        · exact Or.inr ⟨h.choose, List.mem_cons_of_mem _ h.choose_spec.1,
            h.choose_spec.2⟩
      · intro h
        rcases h with h | ⟨x, hx, hvx, hpidx⟩
        · exact Or.inl (Or.inl h)
        · rcases List.mem_cons.mp hx with hx | hx
          · subst hx; exact Or.inl (Or.inr hpidx.symm)
          · exact Or.inr ⟨x, hx, hvx, hpidx⟩

/-- The merged quantity of a product is the sum of the quantities of its
unskipped raw items. -/
theorem mergedQty_mergeItems (items : List CheckoutItem) (pid : String)
    (hvalid : ∀ it ∈ items, ¬(it.product = "" ∨ it.quantity < 1)) :
    mergedQty (mergeItems items) pid = itemsQtySum items pid := by
  rw [mergeItems]
  suffices haux : ∀ (l : List CheckoutItem) (acc : List (String × Int)),
      (∀ it ∈ l, ¬(it.product = "" ∨ it.quantity < 1)) →
      mergedQty (l.foldl (fun acc it =>
          if it.product = "" ∨ it.quantity < 1 then acc
          else addMerged acc it.product it.quantity) acc) pid
        = mergedQty acc pid + itemsQtySum l pid by
    rw [haux items [] hvalid, itemsQtySum]
    simp [mergedQty]
  intro l
  induction l with
  | nil => intro acc _; simp [itemsQtySum, mergedQty]
  | cons it rest ih =>
    intro acc hv
    rw [List.foldl_cons]
    rw [if_neg (hv it (List.mem_cons_self _ _))]
    rw [ih _ (fun x hx => hv x (List.mem_cons_of_mem _ hx))]
    rw [mergedQty_addMerged]
    by_cases hq : it.product = pid
    · simp only [itemsQtySum, List.filter_cons, hq]
      simp
      omega
    · have hq' : ¬pid = it.product := fun hh => hq hh.symm
      simp only [itemsQtySum, List.filter_cons]
      simp [hq, hq']

/-- An absent key has merged quantity 0. -/
theorem mergedQty_eq_zero {l : List (String × Int)} {pid : String}
    (h : pid ∉ l.map Prod.fst) : mergedQty l pid = 0 := by
  induction l with
  | nil => rfl
  | cons e rest ih =>
    rw [mergedQty]
    rw [if_neg (fun hh => h (by simp [hh]))]
    exact ih (fun hh => h (List.mem_cons_of_mem _ hh))

/-- With no duplicate keys, any entry's value is the merged quantity of its
key. -/
theorem mergedQty_of_mem {l : List (String × Int)} {pid : String} {q : Int}
    (hnd : (l.map Prod.fst).Nodup) (h : (pid, q) ∈ l) :
    mergedQty l pid = q := by
  induction l with
  | nil => cases h
  | cons e rest ih =>
    rw [List.map_cons] at hnd
    have hnd' := List.nodup_cons.mp hnd
    rcases List.mem_cons.mp h with h | h
    · rw [← h, mergedQty, if_pos rfl]
    · have hne : e.1 ≠ pid := by
        intro hh
        apply hnd'.1
        rw [hh]
        exact List.mem_map_of_mem Prod.fst h
      rw [mergedQty, if_neg hne]
      exact ih hnd'.2 h

/-- With no duplicate keys, a present key is carried by exactly one entry. -/
theorem countP_key_eq_one {l : List (String × Int)} {pid : String}
    (hnd : (l.map Prod.fst).Nodup) (h : pid ∈ l.map Prod.fst) :
    List.countP (fun e => e.1 == pid) l = 1 := by
  induction l with
  | nil => cases h
  | cons e rest ih =>
    rw [List.map_cons] at hnd h
    have hnd' := List.nodup_cons.mp hnd
    rw [List.countP_cons]
    by_cases he : e.1 = pid
    · have hnot : pid ∉ rest.map Prod.fst := he ▸ hnd'.1
      rw [List.countP_eq_zero.mpr ?_]
      · simp [he]
      · intro x hx hbeq
        apply hnot
        have hx1 : x.1 = pid := by simpa using hbeq
        rw [← hx1]
        exact List.mem_map_of_mem Prod.fst hx
    · rcases List.mem_cons.mp h with h' | h'
      · exact absurd h'.symm he
      · rw [ih hnd'.2 h']
        simp [he]

/-- A checkout body that passed validation has only valid items (non-empty
product id, quantity at least 1). -/
theorem validateCheckout_none_valid {body : CheckoutBody}
    (h : validateCheckout body = none) :
    ∀ it ∈ body.items, ¬(it.product = "" ∨ it.quantity < 1) := by
  rw [validateCheckout] at h
  split at h
  · cases h
  · split at h
    · cases h
    · split at h
      · cases h
      · next hne hid hq =>
        intro it hit hbad
        rcases hbad with hbad | hbad
        · have : isValidObjectId it.product = false := by
            rw [hbad]
            rfl
          exact hid (by
            refine List.any_eq_true.mpr ⟨it, hit, ?_⟩
            simp [this])
        · exact hq (List.any_eq_true.mpr ⟨it, hit, by simpa using hbad⟩)
theorem find?_cons_true {α : Type} (f : α → Bool) (a : α) (l : List α)
    (h : f a = true) : (a :: l).find? f = some a := by
  rw [List.find?, h]

theorem find?_cons_false {α : Type} (f : α → Bool) (a : α) (l : List α)
    (h : f a = false) : (a :: l).find? f = l.find? f := by
  rw [List.find?, h]

theorem option_map_quantity_eta (o : Option Product) :
    Option.map (fun p => { p with quantity := p.quantity }) o = o := by
  cases o <;> rfl

/-- The conditional decrement leaves the catalog's id skeleton unchanged. -/
theorem decrementStock_map_id {ps ps' : List Product} {pid storeId : String}
    {qty : Int} {d : Product}
    (h : decrementStock ps pid storeId qty = some (d, ps')) :
    ps'.map (fun p => p.id) = ps.map (fun p => p.id) := by
  induction ps generalizing ps' with
  | nil => simp [decrementStock] at h
  | cons p rest ih =>
    rw [decrementStock] at h
    split at h
    · cases h; simp
    · cases hrec : decrementStock rest pid storeId qty with
      | none => rw [hrec] at h; cases h
      | some pr =>
        obtain ⟨u, rest'⟩ := pr
        rw [hrec] at h
        cases h
        simp [ih hrec]

/-- The decrement does not affect id-lookups of other product ids. -/
theorem decrementStock_find?_other {ps ps' : List Product}
    {pid storeId : String} {qty : Int} {d : Product} {pid' : String}
    (hne : pid' ≠ pid)
    (h : decrementStock ps pid storeId qty = some (d, ps')) :
    ps'.find? (fun p => p.id == pid')
      = ps.find? (fun p => p.id == pid') := by
  induction ps generalizing ps' with
  | nil => simp [decrementStock] at h
  | cons p rest ih =>
    rw [decrementStock] at h
    split at h
    · next hcond =>
      cases h
      have hf : (p.id == pid') = false := by
        rw [beq_eq_false_iff_ne]
        intro hh
        exact hne (hcond.1 ▸ hh).symm
      rw [find?_cons_false (fun x => x.id == pid') p rest hf]
      rw [find?_cons_false (fun x => x.id == pid')
        { p with quantity := p.quantity - qty } rest hf]
    · cases hrec : decrementStock rest pid storeId qty with
      | none => rw [hrec] at h; cases h
      | some pr =>
        obtain ⟨u, rest'⟩ := pr
        rw [hrec] at h
        cases h
        cases hp : (p.id == pid') with
        | true =>
          rw [find?_cons_true (fun x => x.id == pid') p rest' hp,
            find?_cons_true (fun x => x.id == pid') p rest hp]
        | false =>
          rw [find?_cons_false (fun x => x.id == pid') p rest' hp,
            find?_cons_false (fun x => x.id == pid') p rest hp]
          exact ih hrec

/-- With unique ids, a successful decrement hits exactly the product the
id-lookup finds, and the post-state lookup returns the decremented
document. -/
theorem decrementStock_find?_self {ps ps' : List Product}
    {pid storeId : String} {qty : Int} {d : Product}
    (hnd : (ps.map (fun p => p.id)).Nodup)
    (h : decrementStock ps pid storeId qty = some (d, ps')) :
    ∃ p, ps.find? (fun x => x.id == pid) = some p ∧
      d = { p with quantity := p.quantity - qty } ∧
      ps'.find? (fun x => x.id == pid) = some d := by
  induction ps generalizing ps' with
  | nil => simp [decrementStock] at h
  | cons p rest ih =>
    rw [List.map_cons] at hnd
    have hnd' := List.nodup_cons.mp hnd
    rw [decrementStock] at h
    split at h
    · next hcond =>
      cases h
      refine ⟨p, ?_, rfl, ?_⟩
      · exact find?_cons_true (fun x => x.id == pid) p rest
          (by simp [hcond.1])
      · exact find?_cons_true (fun x => x.id == pid)
          { p with quantity := p.quantity - qty } rest (by simp [hcond.1])
    · cases hrec : decrementStock rest pid storeId qty with
      | none => rw [hrec] at h; cases h
      | some pr =>
        obtain ⟨u, rest'⟩ := pr
        rw [hrec] at h
        cases h
        have hpne : (p.id == pid) = false := by
          rw [beq_eq_false_iff_ne]
          intro hh
          obtain ⟨x, hx, hxid, -⟩ := decrementStock_matched hrec
          apply hnd'.1
          rw [hh, ← hxid]
          exact List.mem_map_of_mem _ hx
        obtain ⟨pp, h1, h2, h3⟩ := ih hnd'.2 hrec
        refine ⟨pp, ?_, h2, ?_⟩
        · rw [find?_cons_false (fun x => x.id == pid) p rest hpne, h1]
        · rw [find?_cons_false (fun x => x.id == pid) p rest' hpne, h3]

/-- Net effect of a successful line loop on the catalog: with unique product
ids and unique merged keys, every product's quantity drops by exactly its
merged quantity (zero for products not in the request). -/
theorem processLines_find? {storeId txId : String} {attr : Attribution}
    {ps ps' : List Product} {lines : List (String × Int)}
    {ins : List SaleInput} {t : ℚ}
    (hnd : (ps.map (fun p => p.id)).Nodup)
    (hkeys : (lines.map Prod.fst).Nodup)
    (h : processLines storeId txId attr ps lines = .ok (ps', ins, t))
    (pid : String) :
    ps'.find? (fun p => p.id == pid)
      = (ps.find? (fun p => p.id == pid)).map
          (fun p => { p with quantity := p.quantity - mergedQty lines pid })
    := by
  induction lines generalizing ps ins t with
  | nil =>
    rw [processLines] at h
    cases h
    simp only [mergedQty, sub_zero]
    exact (option_map_quantity_eta _).symm
  | cons line rest ih =>
    obtain ⟨p0, q0⟩ := line
    rw [List.map_cons] at hkeys
    have hkeys' := List.nodup_cons.mp hkeys
    rw [processLines] at h
    split at h
    · split at h <;> simp at h
    · next doc ps₁ hdec =>
      split at h
      · simp at h
      · split at h
        all_goals
          split at h
          · simp at h
          · next fp ins' t' hrest =>
            cases h
            have hnd₁ : (ps₁.map (fun p => p.id)).Nodup := by
              rw [decrementStock_map_id hdec]
              exact hnd
            have hih := ih hnd₁ hkeys'.2 hrest
            by_cases hpid : pid = p0
            · subst hpid
              have hz : mergedQty rest pid = 0 :=
                mergedQty_eq_zero hkeys'.1
              obtain ⟨pp, h1, h2, h3⟩ := decrementStock_find?_self hnd hdec
              rw [hih, h3, h1, hz, mergedQty, if_pos rfl]
              simp [h2, sub_zero]
            · have hmq : mergedQty ((p0, q0) :: rest) pid
                  = mergedQty rest pid := by
                rw [mergedQty, if_neg (fun hh => hpid hh.symm)]
              rw [hih, decrementStock_find?_other hpid hdec, hmq]

theorem insertSales_map_prodQty (seed : Nat) (now : Int)
    (ins : List SaleInput) :
    (insertSales seed now ins).map (fun s => (s.product, s.quantity))
      = ins.map (fun i => (i.product, i.quantity)) := by
  have aux : ∀ (l : List SaleInput) (n : Nat),
      ((l.enumFrom n).map
        (fun pair => pair.2.toSale (mintOid seed (pair.1 + 1)) now)).map
          (fun s => (s.product, s.quantity))
        = l.map (fun i => (i.product, i.quantity)) := by
    intro l
    induction l with
    | nil => intro n; rfl
    | cons a as ih =>
      intro n
      rw [List.enumFrom, List.map_cons, List.map_cons, ih (n + 1),
        List.map_cons]
      rfl
  rw [insertSales, List.enum]
  exact aux ins 0

/-- A failed conditional decrement means no product matches id, tenant and
stock condition simultaneously. -/
theorem decrementStock_none {ps : List Product} {pid storeId : String}
    {qty : Int} (h : decrementStock ps pid storeId qty = none) :
    ∀ p ∈ ps, ¬(p.id = pid ∧ p.store = storeId ∧ qty ≤ p.quantity) := by
  induction ps with
  | nil => intro p hp; cases hp
  | cons p rest ih =>
    rw [decrementStock] at h
    split at h
    · cases h
    · next hcond =>
      cases hrec : decrementStock rest pid storeId qty with
      | none =>
        intro x hx
        rcases List.mem_cons.mp hx with hx | hx
        · subst hx; exact hcond
        · exact ih hrec x hx
      | some pr => rw [hrec] at h; cases h

/-- The decrement does not affect tenant-scoped lookups of other ids. -/
theorem decrementStock_findProduct_other {ps ps' : List Product}
    {pid storeId : String} {qty : Int} {d : Product} {pid' sid' : String}
    (hne : pid' ≠ pid)
    (h : decrementStock ps pid storeId qty = some (d, ps')) :
    findProduct ps' pid' sid' = findProduct ps pid' sid' := by
  induction ps generalizing ps' with
  | nil => simp [decrementStock] at h
  | cons p rest ih =>
    rw [decrementStock] at h
    split at h
    · next hcond =>
      cases h
      have hf : (p.id == pid' && p.store == sid') = false := by
        have : (p.id == pid') = false := by
          rw [beq_eq_false_iff_ne]
          intro hh
          exact hne (hcond.1 ▸ hh).symm
        simp [this]
      rw [findProduct, findProduct]
      rw [find?_cons_false (fun x => x.id == pid' && x.store == sid') p
        rest hf]
      rw [find?_cons_false (fun x => x.id == pid' && x.store == sid')
        { p with quantity := p.quantity - qty } rest hf]
    · cases hrec : decrementStock rest pid storeId qty with
      | none => rw [hrec] at h; cases h
      | some pr =>
        obtain ⟨u, rest'⟩ := pr
        rw [hrec] at h
        cases h
        cases hp : (p.id == pid' && p.store == sid') with
        | true =>
          rw [findProduct, findProduct]
          rw [find?_cons_true (fun x => x.id == pid' && x.store == sid') p
            rest' hp]
          rw [find?_cons_true (fun x => x.id == pid' && x.store == sid') p
            rest hp]
        | false =>
          rw [findProduct, findProduct]
          rw [find?_cons_false (fun x => x.id == pid' && x.store == sid') p
            rest' hp]
          rw [find?_cons_false (fun x => x.id == pid' && x.store == sid') p
            rest hp]
          exact ih hrec

/-- What a line-loop failure says about the pre-transaction catalog: a
NotFound names a product absent from the tenant, an InsufficientStock names
a product present in the tenant whose reported availability is its actual
stored stock, which is short of the reported request. -/
theorem processLines_error {storeId txId : String} {attr : Attribution}
    {ps : List Product} {lines : List (String × Int)} {e : LineErr}
    (hkeys : (lines.map Prod.fst).Nodup)
    (h : processLines storeId txId attr ps lines = .error e) :
    (∀ pid, e = .notFound pid → findProduct ps pid storeId = none ∧
      pid ∈ lines.map Prod.fst) ∧
    (∀ pid name avail req, e = .insufficientStock pid name avail req →
      ∃ p, findProduct ps pid storeId = some p ∧ name = p.name ∧
        avail = p.quantity ∧ p.quantity < req ∧ (pid, req) ∈ lines) := by
  induction lines generalizing ps with
  | nil => rw [processLines] at h; cases h
  | cons line rest ih =>
    obtain ⟨p0, q0⟩ := line
    rw [List.map_cons] at hkeys
    have hkeys' := List.nodup_cons.mp hkeys
    rw [processLines] at h
    split at h
    · next hdec =>
      split at h
      · next hfind =>
        cases h
        refine ⟨?_, ?_⟩
        · intro pid hpid
          cases hpid
          exact ⟨hfind, by simp⟩
        · intro pid name avail req hpid
          cases hpid
      · next existing hfind =>
        cases h
        refine ⟨?_, ?_⟩
        · intro pid hpid
          cases hpid
        · intro pid name avail req hpid
          cases hpid
          refine ⟨existing, hfind, rfl, rfl, ?_, List.mem_cons_self _ _⟩
          have hmem := List.mem_of_find?_eq_some hfind
          have hpred := List.find?_some hfind
          simp only [Bool.and_eq_true, beq_iff_eq] at hpred
          have hno := decrementStock_none hdec existing hmem
          rw [not_and, not_and] at hno
          exact lt_of_not_le (hno hpred.1 hpred.2)
    · next doc ps₁ hdec =>
      split at h
      · cases h
        refine ⟨?_, ?_⟩
        · intro pid hpid
          cases hpid
        · intro pid name avail req hpid
          cases hpid
      · split at h
        all_goals
          split at h
          · next e' hrest =>
            cases h
            obtain ⟨ihn, ihs⟩ := ih hkeys'.2 hrest
            refine ⟨?_, ?_⟩
            · intro pid hpid
              obtain ⟨hfind₁, hmem₁⟩ := ihn pid hpid
              have hne : pid ≠ p0 := by
                intro hh
                subst hh
                exact hkeys'.1 hmem₁
              rw [← decrementStock_findProduct_other hne hdec]
              exact ⟨hfind₁, by simp [hmem₁]⟩
            · intro pid name avail req hpid
              obtain ⟨p, hfind, hname, havail, hlt, hmem⟩ :=
                ihs pid name avail req hpid
              have hne : pid ≠ p0 := by
                intro hh
                subst hh
                exact hkeys'.1 (by simpa using
                  List.mem_map_of_mem Prod.fst hmem)
              refine ⟨p, ?_, hname, havail, hlt,
                List.mem_cons_of_mem _ hmem⟩
              rw [← decrementStock_findProduct_other hne hdec]
              exact hfind
          · simp at h

theorem mem_insertSorted {α : Type} {le : α → α → Bool} {x a : α}
    {l : List α} : a ∈ insertSorted le x l ↔ a = x ∨ a ∈ l := by
  induction l with
  | nil => simp [insertSorted]
  | cons y ys ih =>
    rw [insertSorted]
    split
    · simp
    · rw [List.mem_cons, ih]
      constructor
      · intro h
        rcases h with h | h | h
        · exact Or.inr (List.mem_cons.mpr (Or.inl h))
        · exact Or.inl h
        · exact Or.inr (List.mem_cons.mpr (Or.inr h))
      · intro h
        rcases h with h | h
        · exact Or.inr (Or.inl h)
        · rcases List.mem_cons.mp h with h | h
          · exact Or.inl h
          · exact Or.inr (Or.inr h)

theorem mem_sortByLe {α : Type} {le : α → α → Bool} {a : α} {l : List α} :
    a ∈ sortByLe le l ↔ a ∈ l := by
  induction l with
  | nil => simp [sortByLe]
  | cons x xs ih =>
    rw [sortByLe, mem_insertSorted, ih, List.mem_cons]

/-- Every row served by `GET /api/sales` satisfies the assembled query. -/
theorem listSales_data_mem {st : DB} {pr : Principal} {q : ListQuery}
    {data : List Sale} {meta : ListMeta}
    (h : listSalesHandler st pr q = .ok data meta) :
    ∀ s ∈ data, s ∈ st.sales ∧
      saleMatchesQuery pr.storeId (listStaffCond pr q.staff)
        (listDateCond q) s = true := by
  rw [listSalesHandler] at h
  dsimp only at h
  split at h
  · cases h
  · intro s hs
    split at h
    · split at h
      · cases h
        have h1 := List.mem_of_mem_take hs
        have h2 := List.mem_of_mem_take h1
        rw [mem_sortByLe] at h2
        exact (List.mem_filter.mp h2).imp id (fun hx => hx)
      · cases h
        have h1 := List.mem_of_mem_take hs
        rw [mem_sortByLe] at h1
        exact (List.mem_filter.mp h1).imp id (fun hx => hx)
    · cases h
      have h1 := List.mem_of_mem_take hs
      have h2 := List.mem_of_mem_drop h1
      rw [mem_sortByLe] at h2
      exact (List.mem_filter.mp h2).imp id (fun hx => hx)

/-- `meta.total` of `GET /api/sales` counts the rows matching the assembled
query — cursor bound included. -/
theorem listSales_total {st : DB} {pr : Principal} {q : ListQuery}
    {data : List Sale} {meta : ListMeta}
    (h : listSalesHandler st pr q = .ok data meta) :
    meta.total = (st.sales.filter
      (saleMatchesQuery pr.storeId (listStaffCond pr q.staff)
        (listDateCond q))).length := by
  rw [listSalesHandler] at h
  dsimp only at h
  split at h
  · cases h
  · split at h
    · split at h
      · cases h; rfl
      · cases h; rfl
    · cases h; rfl

/-- `meta.page` of `GET /api/sales` is null exactly when a cursor was
supplied. -/
theorem listSales_page {st : DB} {pr : Principal} {q : ListQuery}
    {data : List Sale} {meta : ListMeta}
    (h : listSalesHandler st pr q = .ok data meta) :
    meta.page = if q.cursor.isSome then none else some (parsePage q.page)
    := by
  rw [listSalesHandler] at h
  dsimp only at h
  split at h
  · cases h
  · split at h
    · next hcur =>
      rw [Bool.and_eq_true] at hcur
      split at h
      · cases h
        rw [if_pos hcur.1]
      · cases h
        rw [if_pos hcur.1]
    · cases h; rfl

/-! ### Claim theorems -/

/-- **C1.** No oversell: every stock decrement of the engine is the single
conditional test-and-decrement `decrementStock`, which fires only on a
product whose current quantity is at least the requested quantity; hence
after any sequence of sale/checkout requests every stored product quantity
is still non-negative. -/
theorem no_oversell (st : DB) (reqs : List Request) (hst : stockNonneg st) :
    stockNonneg (reqs.foldl applyRequest st) ∧
    (∀ (ps ps' : List Product) (pid storeId : String) (qty : Int)
        (d : Product),
      decrementStock ps pid storeId qty = some (d, ps') →
      ∃ p ∈ ps, p.id = pid ∧ p.store = storeId ∧ qty ≤ p.quantity ∧
        d = { p with quantity := p.quantity - qty }) := by
  constructor
  · induction reqs generalizing st with
    | nil => exact hst
    | cons r rest ih =>
      rw [List.foldl_cons]
      apply ih
      cases r with
      | single pr body now seed => exact recordSingleSale_nonneg hst
      | checkout pr body now seed => exact checkoutHandler_nonneg hst
  · intro ps ps' pid storeId qty d h
    exact decrementStock_matched h

/-- **C2.** Checkout atomicity: when any merged line of a checkout fails
(NotFound, InsufficientStock or InvalidPricing), zero Sale rows are created
and no product's stock is changed — the transaction rolls the earlier
decrements back and the state is exactly the pre-call state — and the
returned error names the product id of one of the call's merged lines. -/
theorem checkout_atomicity {st : DB} {pr : Principal} {body : CheckoutBody}
    {now : Int} {seed : Nat} {e : LineErr}
    (h : (checkoutHandler st pr body now seed).1 = .lineError e) :
    (checkoutHandler st pr body now seed).2 = st ∧
    (checkoutHandler st pr body now seed).2.sales = st.sales ∧
    (checkoutHandler st pr body now seed).2.products = st.products ∧
    e.productId ∈ (mergeItems body.items).map Prod.fst := by
  rcases checkoutHandler_cases st pr body now seed with
    ⟨path, hwhy, hE⟩ | ⟨attr, e', hA, hP, hE⟩ |
    ⟨attr, ps', ins, t, hA, hV, hM, hP, hE⟩
  · rw [hE] at h; cases h
  · rw [hE] at h ⊢
    cases h
    exact ⟨rfl, rfl, rfl, processLines_error_mem hP⟩
  · rw [hE] at h; cases h

/-- Witness for C2: a checkout of 2 Milk (in stock) and 11 Bread (only 10 in
stock) fails with InsufficientStock naming Bread and leaves the store
untouched. -/
theorem checkout_atomicity_witness :
    (checkoutHandler db0 ownerA ⟨[⟨milkId, 2⟩, ⟨breadId, 11⟩], none, none⟩
        100 7).1
      = .lineError (.insufficientStock breadId "Bread" 10 11) ∧
    (checkoutHandler db0 ownerA ⟨[⟨milkId, 2⟩, ⟨breadId, 11⟩], none, none⟩
        100 7).2 = db0 :=
  ⟨by decide,
    (@checkout_atomicity db0 ownerA ⟨[⟨milkId, 2⟩, ⟨breadId, 11⟩], none, none⟩
      100 7 (.insufficientStock breadId "Bread" 10 11) (by decide)).1⟩

/-- Witness for C1 at a concrete store: an overselling checkout, a valid
sale, an overselling sale, and a stock-clearing checkout leave all
quantities non-negative. -/
theorem no_oversell_witness :
    stockNonneg db0 ∧
    stockNonneg
      (([Request.checkout ownerA ⟨[⟨milkId, 25⟩], none, none⟩ 100 7,
        Request.single staffA ⟨milkId, 15, none⟩ 101 8,
        Request.single staffA ⟨milkId, 8, none⟩ 102 9,
        Request.checkout ownerA ⟨[⟨breadId, 10⟩, ⟨milkId, 5⟩], none, some 3000⟩
          103 10]).foldl applyRequest db0) :=
  ⟨by rw [stockNonneg]; decide,
    (no_oversell db0
      [Request.checkout ownerA ⟨[⟨milkId, 25⟩], none, none⟩ 100 7,
        Request.single staffA ⟨milkId, 15, none⟩ 101 8,
        Request.single staffA ⟨milkId, 8, none⟩ 102 9,
        Request.checkout ownerA ⟨[⟨breadId, 10⟩, ⟨milkId, 5⟩], none, some 3000⟩
          103 10]
      (by rw [stockNonneg]; decide)).1⟩

/-- **C4.** Attribution invariant: every Sale row created by the single-sale
or checkout handler has `cashierType = staff` iff `staff` is non-null and
`cashierUser` null (the staff principal's own id is used, any client
`staff` field notwithstanding), and `cashierType = user` iff `cashierUser`
is non-null and `staff` null (the owner/manager's own id). -/
theorem sale_attribution {pr : Principal} (hid : pr.id ≠ "") :
    (∀ st body now seed sale,
      (recordSingleSale st pr body now seed).1 = .created sale →
      (sale.cashierType = .staff ↔ sale.staff ≠ none ∧ sale.cashierUser = none)
      ∧ (sale.cashierType = .user ↔
          sale.cashierUser ≠ none ∧ sale.staff = none)
      ∧ (pr.userType = .staff →
          sale.staff = some pr.id ∧ sale.cashierType = .staff)
      ∧ (pr.userType = .user →
          sale.cashierUser = some pr.id ∧ sale.cashierType = .user)) ∧
    (∀ st body now seed tx stf ct cu cn n total ca sales v,
      (checkoutHandler st pr body now seed).1
        = .created tx stf ct cu cn n total ca sales v →
      ∀ sale ∈ sales,
      (sale.cashierType = .staff ↔ sale.staff ≠ none ∧ sale.cashierUser = none)
      ∧ (sale.cashierType = .user ↔
          sale.cashierUser ≠ none ∧ sale.staff = none)
      ∧ (pr.userType = .staff →
          sale.staff = some pr.id ∧ sale.cashierType = .staff)
      ∧ (pr.userType = .user →
          sale.cashierUser = some pr.id ∧ sale.cashierType = .user)) := by
  constructor
  · intro st body now seed sale h
    rcases recordSingleSale_cases st pr body now seed with
      ⟨path, hE⟩ | ⟨-, -, hE⟩ | ⟨p, -, -, hE⟩ |
      ⟨attr, doc, ps', hA, -, -, hE⟩ |
      ⟨attr, doc, ps', up, hA, -, -, -, hE⟩
    · rw [hE] at h; cases h
    · rw [hE] at h; cases h
    · rw [hE] at h; cases h
    · rw [hE] at h; cases h
    · rw [hE] at h
      cases h
      exact resolveAttribution_spec hid hA
  · intro st body now seed tx stf ct cu cn n total ca sales v h sale hsale
    rcases checkoutHandler_cases st pr body now seed with
      ⟨path, hwhy, hE⟩ | ⟨attr, e, hA, hP, hE⟩ |
      ⟨attr, ps', ins, t, hA, hV, hM, hP, hE⟩
    · rw [hE] at h; cases h
    · rw [hE] at h; cases h
    · rw [hE] at h
      cases h
      obtain ⟨i, hi, -, -, -, -, hstf, hct, hcu, -, -, -, -⟩ :=
        mem_insertSales hsale
      obtain ⟨-, -, h3⟩ := processLines_inputs hP
      obtain ⟨histf, hict, hicu, -, -, -, -⟩ := h3 i hi
      rw [hstf, hct, hcu, histf, hict, hicu]
      exact resolveAttribution_spec hid hA

/-- Witness for C4: a staff-principal single sale (with a client-supplied
`staff` field, which is ignored) yields a row attributed to the staff
principal, satisfying the invariant. -/
theorem sale_attribution_witness :
    staffA.id ≠ "" ∧
    (recordSingleSale db0 staffA ⟨milkId, 1, some storeA⟩ 100 7).1
      = .created saleW ∧
    ((saleW.cashierType = .staff ↔ saleW.staff ≠ none ∧ saleW.cashierUser = none)
     ∧ (saleW.cashierType = .user ↔
         saleW.cashierUser ≠ none ∧ saleW.staff = none)
     ∧ (staffA.userType = .staff →
         saleW.staff = some staffA.id ∧ saleW.cashierType = .staff)
     ∧ (staffA.userType = .user →
         saleW.cashierUser = some staffA.id ∧ saleW.cashierType = .user)) :=
  ⟨by decide, by decide,
    (@sale_attribution staffA (by decide)).1 db0 ⟨milkId, 1, some storeA⟩
      100 7 saleW (by decide)⟩

theorem insertSales_map_totalPrice (seed : Nat) (now : Int)
    (ins : List SaleInput) :
    (insertSales seed now ins).map (fun s => s.totalPrice)
      = ins.map (fun i => i.totalPrice) := by
  have aux : ∀ (l : List SaleInput) (n : Nat),
      ((l.enumFrom n).map
        (fun pair => pair.2.toSale (mintOid seed (pair.1 + 1)) now)).map
          (fun s => s.totalPrice)
        = l.map (fun i => i.totalPrice) := by
    intro l
    induction l with
    | nil => intro n; rfl
    | cons a as ih =>
      intro n
      rw [List.enumFrom, List.map_cons, List.map_cons, ih (n + 1),
        List.map_cons]
      rfl
  rw [insertSales, List.enum]
  exact aux ins 0

/-- **C8.** Expected-total is advisory: a checkout that passes validation
and stock reservation succeeds (201) whatever `client.expectedTotal` says;
the response's validation block reports the client value, the
server-computed total and their comparison; the persisted total is the
server-computed sum of `unitPrice × quantity` over the created rows; and
replacing the client's expected total by any other value changes nothing
but the reported comparison. -/
theorem expected_total_advisory {st : DB} {pr : Principal}
    {body : CheckoutBody} {now : Int} {seed : Nat}
    {tx : String} {stf : Option String} {ct : CashierType}
    {cu cn : Option String} {n : Nat} {total : ℚ} {ca : Int}
    {sales : List Sale} {v : ValidationInfo} {q : ℚ}
    (hexp : body.expectedTotal = some q)
    (h : (checkoutHandler st pr body now seed).1
      = .created tx stf ct cu cn n total ca sales v) :
    CheckoutResp.status (checkoutHandler st pr body now seed).1 = 201 ∧
    v = ⟨some q, total, some (q == total)⟩ ∧
    total = (sales.map (fun s => s.totalPrice)).sum ∧
    (∀ s ∈ sales, ∃ u, s.unitPrice = some u ∧
      s.totalPrice = u * (s.quantity : ℚ)) ∧
    ∀ body' : CheckoutBody, body'.items = body.items →
      body'.staff = body.staff → ∀ q' : ℚ, body'.expectedTotal = some q' →
      (checkoutHandler st pr body' now seed).1
        = .created tx stf ct cu cn n total ca sales
            ⟨some q', total, some (q' == total)⟩ ∧
      (checkoutHandler st pr body' now seed).2
        = (checkoutHandler st pr body now seed).2 := by
  rcases checkoutHandler_cases st pr body now seed with
    ⟨path, hwhy, hE⟩ | ⟨attr, e, hA, hP, hE⟩ |
    ⟨attr, ps', ins, t, hA, hV, hM, hP, hE⟩
  · rw [hE] at h; cases h
  · rw [hE] at h; cases h
  · rw [hE] at h
    cases h
    obtain ⟨-, h2, h3⟩ := processLines_inputs hP
    refine ⟨by rw [hE]; rfl, by rw [hexp]; rfl, ?_, ?_, ?_⟩
    · rw [insertSales_map_totalPrice]
      exact h2
    · intro s hs
      obtain ⟨i, hi, -, hq, htp, hup, -, -, -, -, -, -, -⟩ :=
        mem_insertSales hs
      obtain ⟨-, -, -, -, -, -, hlast⟩ := h3 i hi
      exact ⟨i.unitPrice, hup, by rw [htp, hq, hlast]⟩
    · intro body' hitems hstaff q' hexp'
      have hv' : validateCheckout body' = validateCheckout body := by
        rw [validateCheckout, validateCheckout, hitems]
      have hm' : mergeItems body'.items = mergeItems body.items := by
        rw [hitems]
      have ha' : resolveAttribution pr body'.staff
          = resolveAttribution pr body.staff := by rw [hstaff]
      rcases checkoutHandler_cases st pr body' now seed with
        ⟨path', hwhy', hE'⟩ | ⟨attr', e', hA', hP', hE'⟩ |
        ⟨attr', ps2, ins2, t2, hA2, hV2, hM2, hP2, hE2⟩
      · rcases hwhy' with hsome | ⟨-, hempty, -⟩ | ⟨-, -, herr⟩
        · rw [hv', hV] at hsome; cases hsome
        · rw [hm'] at hempty
          rw [hempty] at hM
          cases hM
        · rw [ha', hA] at herr; cases herr
      · rw [ha', hA] at hA'
        cases hA'
        rw [hm'] at hP'
        rw [hP] at hP'
        cases hP'
      · rw [ha', hA] at hA2
        cases hA2
        rw [hm'] at hP2
        rw [hP] at hP2
        cases hP2
        constructor
        · rw [hE2]
          dsimp only
          rw [hm', hexp']
          rfl
        · rw [hE2, hE]

/-- Witness for C8: a checkout with a deliberately wrong
`client.expectedTotal = 999` against a server total of 1300 still succeeds,
reporting the mismatch in the validation block. -/
theorem expected_total_advisory_witness :
    (⟨[⟨milkId, 2⟩, ⟨breadId, 1⟩], none, some 999⟩
        : CheckoutBody).expectedTotal = some 999 ∧
    (checkoutHandler db0 ownerA ⟨[⟨milkId, 2⟩, ⟨breadId, 1⟩], none, some 999⟩
        100 7).1
      = .created (mintOid 7 0) none .user (some storeA) (some "Owner") 2 1300
          100 [saleW1, saleW2] ⟨some 999, 1300, some false⟩ ∧
    (⟨some 999, 1300, some false⟩ : ValidationInfo)
      = ⟨some 999, 1300, some ((999 : ℚ) == 1300)⟩ :=
  ⟨rfl, by decide,
    (@expected_total_advisory db0 ownerA
      ⟨[⟨milkId, 2⟩, ⟨breadId, 1⟩], none, some 999⟩ 100 7 (mintOid 7 0)
      none .user (some storeA) (some "Owner") 2 1300 100 [saleW1, saleW2]
      ⟨some 999, 1300, some false⟩ 999 rfl (by decide)).2.1⟩

/-- **C3.** Duplicate-line merge: a checkout whose items mention the same
product more than once creates exactly one Sale row for that product, whose
quantity is the sum of the duplicate lines' quantities, and (with unique
catalog ids) decrements that product's stock once by the combined amount. -/
theorem checkout_duplicate_merge {st : DB} {pr : Principal}
    {body : CheckoutBody} {now : Int} {seed : Nat}
    {tx : String} {stf : Option String} {ct : CashierType}
    {cu cn : Option String} {n : Nat} {total : ℚ} {ca : Int}
    {sales : List Sale} {v : ValidationInfo} {pid : String}
    (hdup : 1 < (body.items.filter (fun it => it.product == pid)).length)
    (h : (checkoutHandler st pr body now seed).1
      = .created tx stf ct cu cn n total ca sales v) :
    (sales.filter (fun s => s.product == pid)).length = 1 ∧
    (∀ s ∈ sales, s.product = pid →
      s.quantity = itemsQtySum body.items pid) ∧
    ((st.products.map (fun p => p.id)).Nodup →
      (checkoutHandler st pr body now seed).2.products.find?
          (fun p => p.id == pid)
        = (st.products.find? (fun p => p.id == pid)).map
            (fun p => { p with quantity :=
                p.quantity - itemsQtySum body.items pid })) := by
  rcases checkoutHandler_cases st pr body now seed with
    ⟨path, hwhy, hE⟩ | ⟨attr, e, hA, hP, hE⟩ |
    ⟨attr, ps', ins, t, hA, hV, hM, hP, hE⟩
  · rw [hE] at h; cases h
  · rw [hE] at h; cases h
  · rw [hE] at h
    cases h
    have hvalid := validateCheckout_none_valid hV
    have hkeysnd := nodup_keys_mergeItems body.items
    have hsum : mergedQty (mergeItems body.items) pid
        = itemsQtySum body.items pid :=
      mergedQty_mergeItems body.items pid hvalid
    obtain ⟨x, hxmem⟩ := List.exists_mem_of_ne_nil _
      (List.ne_nil_of_length_pos (lt_trans one_pos hdup))
    obtain ⟨hxitems, hxpid⟩ := List.mem_filter.mp hxmem
    have hxpid' : x.product = pid := by simpa using hxpid
    have hmem : pid ∈ (mergeItems body.items).map Prod.fst :=
      (mem_keys_mergeItems body.items pid).mpr
        ⟨x, hxitems, hvalid x hxitems, hxpid'⟩
    obtain ⟨hins, -, -⟩ := processLines_inputs hP
    refine ⟨?_, ?_, ?_⟩
    · rw [← List.countP_eq_length_filter]
      have hmap : (insertSales seed now ins).map
          (fun s => (s.product, s.quantity)) = mergeItems body.items := by
        rw [insertSales_map_prodQty, hins]
      have hcnt := countP_key_eq_one hkeysnd hmem
      rw [← hmap, List.countP_map] at hcnt
      simpa using hcnt
    · intro s hs hspid
      obtain ⟨i, hi, hiprod, hiq, -, -, -, -, -, -, -, -, -⟩ :=
        mem_insertSales hs
      have hpair : (i.product, i.quantity) ∈ mergeItems body.items := by
        rw [← hins]
        exact List.mem_map_of_mem _ hi
      rw [← hiprod, hspid] at hpair
      rw [hiq, ← hsum]
      exact (mergedQty_of_mem hkeysnd hpair).symm
    · intro hnd
      rw [hE]
      rw [← hsum]
      exact processLines_find? hnd hkeysnd hP pid

/-- Witness for C3: checkout of `[(Milk, 1), (Milk, 2)]` makes one Milk row
of quantity 3 and decrements Milk stock by 3 once. -/
theorem checkout_duplicate_merge_witness :
    1 < ((⟨[⟨milkId, 1⟩, ⟨milkId, 2⟩], none, none⟩ : CheckoutBody).items.filter
        (fun it => it.product == milkId)).length ∧
    (((checkoutHandler db0 ownerA ⟨[⟨milkId, 1⟩, ⟨milkId, 2⟩], none, none⟩
        100 7).1 = .created (mintOid 7 0) none .user (some storeA)
          (some "Owner") 1 1500 100
          [⟨mintOid 7 1, some (mintOid 7 0), milkId, some "Milk", some 500,
            some 350, none, .user, some storeA, some "Owner", 3, 1500,
            storeA, 100⟩]
          ⟨none, 1500, none⟩) ∧
      ([⟨mintOid 7 1, some (mintOid 7 0), milkId, some "Milk", some 500,
          some 350, none, .user, some storeA, some "Owner", 3, 1500,
          storeA, 100⟩].filter
        (fun (s : Sale) => s.product == milkId)).length = 1) :=
  ⟨by decide, by decide,
    (@checkout_duplicate_merge db0 ownerA
      ⟨[⟨milkId, 1⟩, ⟨milkId, 2⟩], none, none⟩ 100 7 (mintOid 7 0) none
      .user (some storeA) (some "Owner") 1 1500 100
      [⟨mintOid 7 1, some (mintOid 7 0), milkId, some "Milk", some 500,
        some 350, none, .user, some storeA, some "Owner", 3, 1500,
        storeA, 100⟩]
      ⟨none, 1500, none⟩ milkId (by decide) (by decide)).1⟩

/-- **C6.** Failure discrimination: when a sale or checkout line's
conditional decrement matches no row, the handler re-fetches the product in
the tenant and answers NotFound (404, with the product id) when it is
absent, or InsufficientStock (400, with product id, name, available and
requested quantities, where "available" is the actual stored stock, short
of the request) when present; in both cases stock is untouched. -/
theorem failure_discrimination {st : DB} {pr : Principal} {now : Int}
    {seed : Nat} :
    (∀ body : SingleSaleBody,
      ((recordSingleSale st pr body now seed).1
          = .lineError (.notFound body.product) →
        findProduct st.products body.product pr.storeId = none ∧
        LineErr.status (.notFound body.product) = 404 ∧
        (recordSingleSale st pr body now seed).2 = st) ∧
      (∀ pid name avail req,
        (recordSingleSale st pr body now seed).1
          = .lineError (.insufficientStock pid name avail req) →
        pid = body.product ∧ req = body.quantity ∧
        LineErr.status (.insufficientStock pid name avail req) = 400 ∧
        (∃ p, findProduct st.products pid pr.storeId = some p ∧
          name = p.name ∧ avail = p.quantity ∧ p.quantity < req) ∧
        (recordSingleSale st pr body now seed).2 = st)) ∧
    (∀ body : CheckoutBody,
      (∀ pid, (checkoutHandler st pr body now seed).1
          = .lineError (.notFound pid) →
        findProduct st.products pid pr.storeId = none ∧
        LineErr.status (.notFound pid) = 404 ∧
        (checkoutHandler st pr body now seed).2 = st) ∧
      (∀ pid name avail req,
        (checkoutHandler st pr body now seed).1
          = .lineError (.insufficientStock pid name avail req) →
        LineErr.status (.insufficientStock pid name avail req) = 400 ∧
        (∃ p, findProduct st.products pid pr.storeId = some p ∧
          name = p.name ∧ avail = p.quantity ∧ p.quantity < req) ∧
        (checkoutHandler st pr body now seed).2 = st)) := by
  constructor
  · intro body
    rcases recordSingleSale_cases st pr body now seed with
      ⟨path, hE⟩ | ⟨hdec, hfind, hE⟩ | ⟨p, hdec, hfind, hE⟩ |
      ⟨attr, doc, ps', hA, hdec, hprice, hE⟩ |
      ⟨attr, doc, ps', up, hA, hval, hdec, hprice, hE⟩
    · constructor
      · intro h; rw [hE] at h; cases h
      · intro pid name avail req h; rw [hE] at h; cases h
    · constructor
      · intro h
        rw [hE]
        exact ⟨hfind, rfl, rfl⟩
      · intro pid name avail req h
        rw [hE] at h
        cases h
    · constructor
      · intro h
        rw [hE] at h
        cases h
      · intro pid name avail req h
        rw [hE] at h
        cases h
        refine ⟨rfl, rfl, rfl, ⟨p, hfind, rfl, rfl, ?_⟩, by rw [hE]⟩
        have hmem := List.mem_of_find?_eq_some hfind
        have hpred := List.find?_some hfind
        simp only [Bool.and_eq_true, beq_iff_eq] at hpred
        have hno := decrementStock_none hdec p hmem
        rw [not_and, not_and] at hno
        exact lt_of_not_le (hno hpred.1 hpred.2)
    · constructor
      · intro h; rw [hE] at h; cases h
      · intro pid name avail req h; rw [hE] at h; cases h
    · constructor
      · intro h; rw [hE] at h; cases h
      · intro pid name avail req h; rw [hE] at h; cases h
  · intro body
    rcases checkoutHandler_cases st pr body now seed with
      ⟨path, hwhy, hE⟩ | ⟨attr, e, hA, hP, hE⟩ |
      ⟨attr, ps', ins, t, hA, hV, hM, hP, hE⟩
    · constructor
      · intro pid h; rw [hE] at h; cases h
      · intro pid name avail req h; rw [hE] at h; cases h
    · have hperr := processLines_error (nodup_keys_mergeItems body.items) hP
      constructor
      · intro pid h
        rw [hE] at h
        cases h
        exact ⟨(hperr.1 pid rfl).1, rfl, by rw [hE]⟩
      · intro pid name avail req h
        rw [hE] at h
        cases h
        obtain ⟨p, hfind, hname, havail, hlt, -⟩ :=
          hperr.2 pid name avail req rfl
        exact ⟨rfl, ⟨p, hfind, hname, havail, hlt⟩, by rw [hE]⟩
    · constructor
      · intro pid h; rw [hE] at h; cases h
      · intro pid name avail req h; rw [hE] at h; cases h

/-- Witness for C6: a single sale of 25 Milk against stock 20 fails with
InsufficientStock reporting available 20 and requested 25, leaving the
store unchanged. -/
theorem failure_discrimination_witness :
    (recordSingleSale db0 staffA ⟨milkId, 25, none⟩ 100 7).1
      = .lineError (.insufficientStock milkId "Milk" 20 25) ∧
    (milkId = (⟨milkId, 25, none⟩ : SingleSaleBody).product ∧
      (25 : Int) = (⟨milkId, 25, none⟩ : SingleSaleBody).quantity ∧
      LineErr.status (.insufficientStock milkId "Milk" 20 25) = 400 ∧
      (∃ p, findProduct db0.products milkId staffA.storeId = some p ∧
        "Milk" = p.name ∧ (20 : Int) = p.quantity ∧ p.quantity < 25) ∧
      (recordSingleSale db0 staffA ⟨milkId, 25, none⟩ 100 7).2 = db0) :=
  ⟨by decide,
    (@failure_discrimination db0 staffA 100 7).1 ⟨milkId, 25, none⟩ |>.2
      milkId "Milk" 20 25 (by decide)⟩

/-- **C7** (failing input). In the single-sale path the conditional
decrement is committed before the price is validated and there is no
transaction to roll it back: selling 2 of a product with a non-finite price
and stock 5 answers InvalidPricing (400) yet leaves the stored quantity at
3, not 5. This refutes the claim that the stored quantity is unchanged, and
matches the spec's own open question mandating validate-before-decrement. -/
theorem invalid_pricing_decrements_stock :
    (recordSingleSale db1 staffA ⟨phantomId, 2, none⟩ 100 7).1
      = .lineError (.invalidPricing phantomId) ∧
    SingleResp.status
      (recordSingleSale db1 staffA ⟨phantomId, 2, none⟩ 100 7).1 = 400 ∧
    phantom.quantity = 5 ∧
    (recordSingleSale db1 staffA ⟨phantomId, 2, none⟩ 100 7).2.products
      = [{ phantom with quantity := 3 }] ∧
    (recordSingleSale db1 staffA ⟨phantomId, 2, none⟩ 100 7).2 ≠ db1 := by
  refine ⟨by decide, by decide, by decide, by decide, by decide⟩

/-- **C10.** Cursor-mode total semantics: with a parseable cursor and an
effective sort field of `createdAt`, the cursor bound is part of the counted
query, so `meta.total` is the number of rows strictly beyond the cursor
(under the other filters), not the overall total; it can only shrink as the
client pages forward, and `meta.page` is null whenever a cursor is
present. -/
theorem cursor_total_semantics {st : DB} {pr : Principal} {q : ListQuery}
    {data : List Sale} {meta : ListMeta} {c : Int}
    (hc : q.cursor = some (some c))
    (heff : effectiveSortField (q.sort.getD "-createdAt") = "createdAt")
    (h : listSalesHandler st pr q = .ok data meta) :
    (sortDirOf (q.sort.getD "-createdAt") = -1 →
      meta.total = (st.sales.filter
        (saleMatchesQuery pr.storeId (listStaffCond pr q.staff)
          ⟨q.startDate, q.endDate, some c, none⟩)).length) ∧
    (sortDirOf (q.sort.getD "-createdAt") = 1 →
      meta.total = (st.sales.filter
        (saleMatchesQuery pr.storeId (listStaffCond pr q.staff)
          ⟨q.startDate, q.endDate, none, some c⟩)).length) ∧
    meta.page = none ∧
    (∀ (c' : Int) (data' : List Sale) (meta' : ListMeta),
      sortDirOf (q.sort.getD "-createdAt") = -1 → c' ≤ c →
      listSalesHandler st pr { q with cursor := some (some c') }
        = .ok data' meta' →
      meta'.total ≤ meta.total) := by
  have htot := listSales_total h
  have hpage := listSales_page h
  refine ⟨?_, ?_, ?_, ?_⟩
  · intro hdir
    rw [htot]
    have hdc : listDateCond q = ⟨q.startDate, q.endDate, some c, none⟩ := by
      simp [listDateCond, hc, heff, hdir]
    rw [hdc]
  · intro hdir
    rw [htot]
    have hdc : listDateCond q = ⟨q.startDate, q.endDate, none, some c⟩ := by
      have : sortDirOf (q.sort.getD "-createdAt") ≠ -1 := by
        rw [hdir]; decide
      simp [listDateCond, hc, heff, this]
    rw [hdc]
  · rw [hpage, hc]
    rfl
  · intro c' data' meta' hdir hle h'
    have htot' := listSales_total h'
    have hdc : listDateCond q = ⟨q.startDate, q.endDate, some c, none⟩ := by
      simp [listDateCond, hc, heff, hdir]
    have hdc' : listDateCond { q with cursor := some (some c') }
        = ⟨q.startDate, q.endDate, some c', none⟩ := by
      simp [listDateCond, heff, hdir]
    rw [htot, htot', hdc, hdc']
    rw [← List.countP_eq_length_filter, ← List.countP_eq_length_filter]
    apply List.countP_mono_left
    intro s hs hp
    simp only [saleMatchesQuery, DateCond.holds, Bool.and_eq_true,
      decide_eq_true_eq, and_assoc] at hp ⊢
    obtain ⟨h1, h2, h3, h4, h5, h6⟩ := hp
    exact ⟨h1, h2, h3, h4, by omega, h6⟩

/-- **C5.** Role scoping: on every read operation a staff principal only
ever receives Sale rows they cashiered in their own tenant, while an
owner/manager receives exactly their tenant's rows, optionally narrowed by
the staff query parameter; the transaction detail and receipt serve only
rows of the shared scoped query. -/
theorem role_scoping {st : DB} {pr : Principal} :
    (∀ (q : ListQuery) (data : List Sale) (meta : ListMeta),
      listSalesHandler st pr q = .ok data meta →
      (pr.userType = .staff →
        ∀ s ∈ data, s ∈ st.sales ∧ s.staff = some pr.id ∧
          s.store = pr.storeId) ∧
      (pr.userType = .user → q.staff = none → q.startDate = none →
        q.endDate = none → q.cursor = none →
        meta.total = (st.sales.filter
          (fun s => s.store == pr.storeId)).length ∧
        ∀ s ∈ data, s ∈ st.sales ∧ s.store = pr.storeId) ∧
      (pr.userType = .user → (pr.role = "admin" ∨ pr.role = "manager") →
        ∀ v : String, q.staff = some v → v ≠ "" → q.startDate = none →
        q.endDate = none → q.cursor = none →
        meta.total = (st.sales.filter
          (fun s => s.store == pr.storeId && s.staff == some v)).length)) ∧
    (pr.userType = .staff → ∀ q : TxQuery, ∀ s ∈ txMatchedRows st pr q,
      s.staff = some pr.id ∧ s.store = pr.storeId) ∧
    (pr.userType = .user → ∀ q : TxQuery, q.staff = none →
      q.startDate = none → q.endDate = none →
      txMatchedRows st pr q
        = st.sales.filter (fun s => s.store == pr.storeId)) ∧
    (∀ oid : String, ∀ s ∈ txDetailRows st pr oid, s ∈ st.sales ∧
      s.store = pr.storeId ∧
      (pr.userType = .staff → s.staff = some pr.id)) ∧
    (∀ (rawId : String) (tr : TxDetailTransaction) (sales' : List Sale),
      txDetail st pr rawId = .ok tr sales' →
      ∀ s ∈ sales', s ∈ txDetailRows st pr (jsTrim rawId)) ∧
    (∀ (rawId : String) (tr : TxDetailTransaction)
        (items : List ReceiptLine),
      txReceipt st pr rawId = .ok tr items →
      ∀ li ∈ items, ∃ s ∈ txDetailRows st pr (jsTrim rawId),
        li.saleId = s.id ∧ li.quantity = s.quantity) := by
  refine ⟨?_, ?_, ?_, ?_, ?_, ?_⟩
  · intro q data meta h
    refine ⟨?_, ?_, ?_⟩
    · intro hstaff s hs
      obtain ⟨hmem, hpred⟩ := listSales_data_mem h s hs
      have hcond : listStaffCond pr q.staff = some pr.id := by
        simp [listStaffCond, hstaff]
      rw [hcond] at hpred
      simp only [saleMatchesQuery, Bool.and_eq_true, beq_iff_eq] at hpred
      exact ⟨hmem, hpred.1.2, hpred.1.1⟩
    · intro huser h1 h2 h3 h4
      have hcond : listStaffCond pr q.staff = none := by
        simp [listStaffCond, huser, h1]
      have hdc : listDateCond q = ⟨none, none, none, none⟩ := by
        simp [listDateCond, h2, h3, h4]
      constructor
      · rw [listSales_total h, hcond, hdc]
        rw [List.filter_congr ?_]
        intro s hs
        simp [saleMatchesQuery, DateCond.holds]
      · intro s hs
        obtain ⟨hmem, hpred⟩ := listSales_data_mem h s hs
        rw [hcond, hdc] at hpred
        simp only [saleMatchesQuery, Bool.and_eq_true, beq_iff_eq] at hpred
        exact ⟨hmem, hpred.1.1⟩
    · intro huser hrole v hv hvne h2 h3 h4
      have htr : strTruthy (some v) = true := by
        simp [strTruthy, hvne]
      have hrl : (pr.role == "admin" || pr.role == "manager") = true := by
        rcases hrole with hr | hr <;> simp [hr]
      have hcond : listStaffCond pr q.staff = some v := by
        rw [hv, listStaffCond]
        rw [if_neg (by simp [huser]), if_pos (by simp [hrl, htr])]
      have hdc : listDateCond q = ⟨none, none, none, none⟩ := by
        simp [listDateCond, h2, h3, h4]
      rw [listSales_total h, hcond, hdc]
      rw [List.filter_congr ?_]
      intro s hs
      simp [saleMatchesQuery, DateCond.holds]
  · intro hstaff q s hs
    rw [txMatchedRows] at hs
    obtain ⟨hmem, hpred⟩ := List.mem_filter.mp hs
    have : (if pr.userType == UserType.staff then some pr.id
        else if (pr.role == "admin" || pr.role == "manager")
            && strTruthy q.staff then q.staff
        else none) = some pr.id := by
      simp [hstaff]
    rw [this] at hpred
    simp only [saleMatchesQuery, Bool.and_eq_true, beq_iff_eq] at hpred
    exact ⟨hpred.1.2, hpred.1.1⟩
  · intro huser q h1 h2 h3
    rw [txMatchedRows]
    have : (if pr.userType == UserType.staff then some pr.id
        else if (pr.role == "admin" || pr.role == "manager")
            && strTruthy q.staff then q.staff
        else none) = none := by
      simp [huser, h1, strTruthy]
    rw [this, h2, h3]
    rw [List.filter_congr ?_]
    intro s hs
    simp [saleMatchesQuery, DateCond.holds]
  · intro oid s hs
    rw [txDetailRows] at hs
    obtain ⟨hmem, hpred⟩ := List.mem_filter.mp hs
    simp only [Bool.and_eq_true, Bool.or_eq_true, beq_iff_eq,
      bne_iff_ne] at hpred
    refine ⟨hmem, hpred.1.1, ?_⟩
    intro hstaff
    rcases hpred.2 with hbad | hgood
    · exact absurd hstaff hbad
    · exact hgood
  · intro rawId tr sales' h s hs
    rw [txDetail] at h
    dsimp only at h
    split at h
    · cases h
    · split at h
      · cases h
      · next s0 rest heq =>
        cases h
        exact mem_sortByLe.mp hs
  · intro rawId tr items h li hli
    rw [txReceipt] at h
    dsimp only at h
    split at h
    · cases h
    · split at h
      · cases h
      · next s0 rest heq =>
        cases h
        obtain ⟨s, hs, hmap⟩ := List.mem_map.mp hli
        refine ⟨s, ?_, ?_, ?_⟩
        · exact mem_sortByLe.mp hs
        · rw [← hmap]; rfl
        · rw [← hmap]; rfl

/-- **C9** (counterexample to the claim as stated). An admin's
`GET /api/sales?staff=zzz` with the malformed staff filter `"zzz"` is NOT
rejected with a 400 ValidationError: the raw string goes into the query,
Mongoose's ObjectId cast throws, and the handler's catch-all answers the
generic 500. -/
theorem malformed_staff_filter_is_500 :
    listSalesHandler db0 ownerA
        ⟨some "zzz", none, none, none, none, none, none⟩ = .serverError ∧
    ListResp.status (listSalesHandler db0 ownerA
        ⟨some "zzz", none, none, none, none, none, none⟩) = 500 ∧
    ListResp.status (listSalesHandler db0 ownerA
        ⟨some "zzz", none, none, none, none, none, none⟩) ≠ 400 := by
  refine ⟨by decide, by decide, by decide⟩

/-- **C9** (amended). Malformed ids in checkout/sale bodies, in the
`transactionId` path parameter, and in the transaction-listing staff filter
are rejected with a 400 ValidationError carrying the failing path; but the
staff filter of the flat sales listing is passed to the store unvalidated,
so a malformed value there surfaces as the generic 500, not a 400. -/
theorem malformed_id_handling {st : DB} {pr : Principal} {now : Int}
    {seed : Nat} :
    (∀ body : CheckoutBody,
      (∃ it ∈ body.items, isValidObjectId it.product = false) →
      (checkoutHandler st pr body now seed).1
        = .validationError "items.*.product" ∧
      CheckoutResp.status (checkoutHandler st pr body now seed).1 = 400) ∧
    (∀ body : SingleSaleBody, isValidObjectId body.product = false →
      (recordSingleSale st pr body now seed).1
        = .validationError "product" ∧
      SingleResp.status (recordSingleSale st pr body now seed).1 = 400) ∧
    (∀ rawId : String, isValidObjectId (jsTrim rawId) = false →
      txDetail st pr rawId = .validationError "transactionId" ∧
      txReceipt st pr rawId = .validationError "transactionId") ∧
    (∀ (q : TxQuery) (v : String), pr.userType = .user →
      (pr.role = "admin" ∨ pr.role = "manager") → q.staff = some v →
      v ≠ "" → isValidObjectId v = false →
      listTransactions st pr q = .validationError "staff" ∧
      TxListResp.status (listTransactions st pr q) = 400) ∧
    (∀ (q : ListQuery) (v : String), pr.userType = .user →
      (pr.role = "admin" ∨ pr.role = "manager") → q.staff = some v →
      v ≠ "" → isValidObjectId v = false →
      listSalesHandler st pr q = .serverError ∧
      ListResp.status (listSalesHandler st pr q) = 500) := by
  refine ⟨?_, ?_, ?_, ?_, ?_⟩
  · intro body hex
    obtain ⟨it, hit, hbad⟩ := hex
    have hemp : body.items.isEmpty = false := by
      cases hl : body.items.isEmpty
      · rfl
      · rw [List.isEmpty_iff] at hl
        rw [hl] at hit
        cases hit
    have hany : body.items.any (fun it => !isValidObjectId it.product)
        = true :=
      List.any_eq_true.mpr ⟨it, hit, by rw [hbad]; rfl⟩
    have hval : validateCheckout body = some "items.*.product" := by
      rw [validateCheckout, if_neg (by simp [hemp]), if_pos hany]
    constructor
    · rw [checkoutHandler, hval]
    · rw [checkoutHandler, hval]
      rfl
  · intro body hbad
    have hval : validateSingle body = some "product" := by
      rw [validateSingle, if_pos (by simp [hbad])]
    constructor
    · rw [recordSingleSale, hval]
    · rw [recordSingleSale, hval]
      rfl
  · intro rawId hbad
    constructor
    · rw [txDetail]
      dsimp only
      rw [if_pos (by simp [hbad])]
    · rw [txReceipt]
      dsimp only
      rw [if_pos (by simp [hbad])]
  · intro q v huser hrole hv hvne hbad
    have hrl : (pr.role == "admin" || pr.role == "manager") = true := by
      rcases hrole with hr | hr <;> simp [hr]
    have hc : ((pr.userType != UserType.staff)
        && (pr.role == "admin" || pr.role == "manager")
        && strTruthy q.staff
        && !isValidObjectId (q.staff.getD "")) = true := by
      simp [huser, hrl, hv, strTruthy, hvne, hbad]
    constructor
    · rw [listTransactions]
      dsimp only
      rw [if_pos hc]
    · rw [listTransactions]
      dsimp only
      rw [if_pos hc]
      rfl
  · intro q v huser hrole hv hvne hbad
    have hrl : (pr.role == "admin" || pr.role == "manager") = true := by
      rcases hrole with hr | hr <;> simp [hr]
    have hc : ((pr.userType != UserType.staff)
        && (pr.role == "admin" || pr.role == "manager")
        && strTruthy q.staff
        && !isValidObjectId (q.staff.getD "")) = true := by
      simp [huser, hrl, hv, strTruthy, hvne, hbad]
    constructor
    · rw [listSalesHandler]
      dsimp only
      rw [if_pos hc]
    · rw [listSalesHandler]
      dsimp only
      rw [if_pos hc]
      rfl

/-- Witness for the amended C9 at concrete malformed inputs. -/
theorem malformed_id_handling_witness :
    ((checkoutHandler db0 ownerA ⟨[⟨"zzz", 1⟩], none, none⟩ 100 7).1
      = .validationError "items.*.product" ∧
     CheckoutResp.status
       (checkoutHandler db0 ownerA ⟨[⟨"zzz", 1⟩], none, none⟩ 100 7).1
       = 400) ∧
    (txDetail db0 staffA "zzz" = .validationError "transactionId" ∧
     txReceipt db0 staffA "zzz" = .validationError "transactionId") ∧
    (listTransactions db0 ownerA ⟨some "zzz", none, none, none, none⟩
      = .validationError "staff" ∧
     TxListResp.status
       (listTransactions db0 ownerA ⟨some "zzz", none, none, none, none⟩)
       = 400) ∧
    (listSalesHandler db0 ownerA
        ⟨some "zzz", none, none, none, none, none, none⟩ = .serverError ∧
     ListResp.status (listSalesHandler db0 ownerA
        ⟨some "zzz", none, none, none, none, none, none⟩) = 500) :=
  ⟨(@malformed_id_handling db0 ownerA 100 7).1
      ⟨[⟨"zzz", 1⟩], none, none⟩ ⟨⟨"zzz", 1⟩, by decide, by decide⟩,
   (@malformed_id_handling db0 staffA 100 7).2.2.1 "zzz" (by decide),
   (@malformed_id_handling db0 ownerA 100 7).2.2.2.1
      ⟨some "zzz", none, none, none, none⟩ "zzz" rfl (Or.inl rfl) rfl
      (by decide) (by decide),
   (@malformed_id_handling db0 ownerA 100 7).2.2.2.2
      ⟨some "zzz", none, none, none, none, none, none⟩ "zzz" rfl
      (Or.inl rfl) rfl (by decide) (by decide)⟩

/-- Witness for C5: against a ledger with rows by two staff members and the
owner, staff Ada's listing returns exactly her rows, and the owner's
unfiltered listing counts the whole tenant. -/
theorem role_scoping_witness :
    listSalesHandler dbL staffA ⟨none, none, none, none, none, none, none⟩
      = .ok [sA2, sA1] ⟨2, 50, some 1, none⟩ ∧
    (sA1 ∈ dbL.sales ∧ sA1.staff = some staffA.id ∧
      sA1.store = staffA.storeId) ∧
    (sA2 ∈ dbL.sales ∧ sA2.staff = some staffA.id ∧
      sA2.store = staffA.storeId) ∧
    listSalesHandler dbL ownerA ⟨none, none, none, none, none, none, none⟩
      = .ok [sO1, sB1, sA2, sA1] ⟨4, 50, some 1, none⟩ ∧
    (⟨4, 50, some 1, none⟩ : ListMeta).total
      = (dbL.sales.filter (fun s => s.store == ownerA.storeId)).length :=
  ⟨by decide,
    ((@role_scoping dbL staffA).1 ⟨none, none, none, none, none, none, none⟩
      [sA2, sA1] ⟨2, 50, some 1, none⟩ (by decide)).1 rfl sA1 (by decide),
    ((@role_scoping dbL staffA).1 ⟨none, none, none, none, none, none, none⟩
      [sA2, sA1] ⟨2, 50, some 1, none⟩ (by decide)).1 rfl sA2 (by decide),
    by decide,
    (((@role_scoping dbL ownerA).1
      ⟨none, none, none, none, none, none, none⟩
      [sO1, sB1, sA2, sA1] ⟨4, 50, some 1, none⟩ (by decide)).2.1 rfl rfl
      rfl rfl rfl).1⟩

/-- Witness for C10: with a cursor at time 35 (descending default sort) the
owner's listing counts only the 3 rows older than the cursor, and reports a
null page. -/
theorem cursor_total_semantics_witness :
    listSalesHandler dbL ownerA
        ⟨none, none, none, none, none, none, some (some 35)⟩
      = .ok [sB1, sA2, sA1] ⟨3, 50, none, none⟩ ∧
    (⟨3, 50, none, none⟩ : ListMeta).total
      = (dbL.sales.filter
          (saleMatchesQuery ownerA.storeId (listStaffCond ownerA none)
            ⟨none, none, some 35, none⟩)).length ∧
    (⟨3, 50, none, none⟩ : ListMeta).page = none :=
  ⟨by decide,
    (@cursor_total_semantics dbL ownerA
        ⟨none, none, none, none, none, none, some (some 35)⟩
        [sB1, sA2, sA1] ⟨3, 50, none, none⟩ 35 rfl (by decide)
        (by decide)).1 (by decide),
    (@cursor_total_semantics dbL ownerA
        ⟨none, none, none, none, none, none, some (some 35)⟩
        [sB1, sA2, sA1] ⟨3, 50, none, none⟩ 35 rfl (by decide)
        (by decide)).2.2.1⟩

end RatKernelEval

end StoreTrack
